import Mathlib

/-! Stream core of libreactor (reactor_stream.c).

A shallow embedding of `src/reactor/reactor_stream.c`: the reference-counted
stream object over a poll-multiplexed descriptor.  The C functions mutate one
`reactor_stream` and talk to three collaborators (the descriptor multiplexer,
the byte buffer library and the callback dispatcher); here they become
functions on an explicit `World` record that carries the stream fields, the
multiplexer slot of the descriptor, `errno`, and a trace of everything that is
observable from outside (system calls, multiplexer calls, callback entries and
exits).

The consumer callback is code the stream calls back into, and it may call the
public stream operations synchronously.  It is represented as a function that
answers each dispatch with a list of `Action`s; the dispatcher runs them
against the stream, which may dispatch again (re-entrancy).  Every function
that can reach a callback takes a call-depth budget (`fuel`) and yields `none`
when the budget is used up.
-/

namespace Reactor

/-- One octet of stream data.  The code never inspects data bytes. -/
abbrev Byte := Nat

/-! ## Constants from system and project headers -/

/-- The `poll.h` readiness bit for readable data. -/
def POLLIN : Nat := 0x001
/-- The `poll.h` readiness bit for writability. -/
def POLLOUT : Nat := 0x004
/-- The `poll.h` readiness bit for an error condition. -/
def POLLERR : Nat := 0x008
/-- The `poll.h` readiness bit for hang up. -/
def POLLHUP : Nat := 0x010
/-- The `poll.h` readiness bit for an invalid request. -/
def POLLNVAL : Nat := 0x020

/-- The `errno.h` value of would-block. -/
def EAGAIN : Nat := 11
/-- The `errno.h` value of a bad descriptor. -/
def EBADF : Nat := 9
/-- The `errno.h` value of a broken pipe. -/
def EPIPE : Nat := 32

/-- Width of `size_t` arithmetic (`data->size -= size`, `buffer_size - size`). -/
def SIZE_MOD : Nat := 2 ^ 64

/-- Modelled from the spec: `enum reactor_stream_state` is declared in
`reactor_stream.h`, which is not among the sources.  The spec lists the four
lifecycle phases OPEN, CLOSING, ERROR and CLOSED. -/
inductive State
  | OPEN
  | CLOSING
  | ERROR
  | CLOSED
  deriving DecidableEq, Repr

/-- Modelled from the spec: the enumerators of `reactor_stream_state` as the
source uses them.  The source tests states with `state & MASK` and joins masks
with `|`, so the enumerators are distinct single bits; the values themselves
are in the missing header. -/
def State.bits : State → Nat
  | .CLOSED => 0x01
  | .CLOSING => 0x02
  | .OPEN => 0x04
  | .ERROR => 0x08

/-- Modelled from the spec: `enum reactor_stream_event` (declared in
`reactor_stream.h`): the tags READ, WRITE, BLOCKED, HANGUP, ERROR, CLOSE that
reach the consumer. -/
inductive Event
  | ERROR
  | READ
  | WRITE
  | BLOCKED
  | HANGUP
  | CLOSE
  deriving DecidableEq, Repr

/-- Result of one `write(2)` call: a byte count, or `-1` with an `errno`. -/
inductive WriteRes
  | ok (n : Nat)
  | fail (err : Nat)
  deriving DecidableEq, Repr

/-- Result of one `read(2)` call: the bytes placed in the scratch buffer
(`n` is their number, `0` at end of file, at most `sizeof buffer`), or `-1`
with an `errno`. -/
inductive ReadRes
  | ok (bytes : List Byte)
  | fail (err : Nat)
  deriving DecidableEq, Repr

/-- What the consumer callback may do to the stream while it runs: the public
operations of `reactor_stream.h`, and `reactor_stream_data_consume` on the
payload of the READ event being delivered. -/
inductive Action
  | close
  | write (data : List Byte)
  | flush
  | write_notify
  | hold
  | release
  | consume (size : Nat)
  deriving DecidableEq, Repr

/-- Things observable from outside the stream, in the order they happen. -/
inductive Obs
  /-- The callback is entered with event `ev`; `view` is the READ payload
  (`data.base[0 .. data.size)`), and `state`, `fd`, `ref` are the stream fields
  the callback finds. -/
  | enter (ev : Event) (view : List Byte) (state : State) (fd : Int) (ref : Int)
  /-- The callback entered for `ev` has returned. -/
  | leave (ev : Event)
  /-- A `write(fd, base, size)` call: `handed` is `base[0 .. size)`. -/
  | sys_write (fd : Int) (handed : List Byte) (res : WriteRes)
  /-- A `read(fd, buffer, sizeof buffer)` call. -/
  | sys_read (fd : Int) (res : ReadRes)
  /-- A `close(fd)` call. -/
  | sys_close (fd : Int)
  /-- A `fcntl(fd, F_SETFL, O_NONBLOCK)` call. -/
  | sys_fcntl (fd : Int)
  /-- A `reactor_core_fd_register(fd, ..., mask)` call. -/
  | fd_register (fd : Int) (mask : Nat)
  /-- A `reactor_core_fd_deregister(fd)` call. -/
  | fd_deregister (fd : Int)
  /-- A `buffer_destruct(&stream->input)` call. -/
  | destruct_input
  /-- A `buffer_destruct(&stream->output)` call. -/
  | destruct_output
  deriving DecidableEq, Repr

/-- The `reactor_stream` fields (`ref`, `state`, `fd`, `input`, `output`)
together with the parts of the environment the functions read and write.
The struct is declared in `reactor_stream.h`, which is not among the sources;
`ref` is taken to be a signed integer, as `fd` is.  Of the environment:
`events` is the `events` field of the `struct pollfd` that
`reactor_core_fd_poll(stream->fd)` points to, `registered` tells whether the
descriptor is registered with the multiplexer, `data_size` is `data.size` of
the READ payload last handed out, `nwrite`, `nread` and `ndispatch` count the
system calls and dispatches made so far, and `trace` is the history. -/
structure World where
  ref : Int
  state : State
  fd : Int
  input : List Byte
  output : List Byte
  events : Nat
  registered : Bool
  errno : Nat
  data_size : Nat
  nwrite : Nat
  nread : Nat
  ndispatch : Nat
  trace : List Obs
  deriving DecidableEq, Repr

/-- The world outside the stream: the consumer callback bound by
`reactor_user_construct` and the operating system.  `callback i ev view` is
what the callback does when it is entered for the `i`-th dispatch (counted
from 0) with event `ev` and READ payload `view`.  `sys_write i handed` is the
result of the `i`-th `write` call when it is handed the bytes `handed`, and
`sys_read i` is the result of the `i`-th `read` call. -/
structure Env where
  callback : Nat → Event → List Byte → List Action
  sys_write : Nat → List Byte → WriteRes
  sys_read : Nat → ReadRes

/-! ## The byte buffer (libdynamic) -/

/-- Modelled from the spec: the byte buffer is an external collaborator, "a
growable ordered sequence of bytes supporting append, prefix-erase, and
contiguous-view access".  `buffer_insert(b, pos, data, size)` places the
`size` bytes at `data` before position `pos`. -/
def buffer_insert (b : List Byte) (pos : Nat) (data : List Byte) : List Byte :=
  b.take pos ++ data ++ b.drop pos

/-- Modelled from the spec: `buffer_erase(b, pos, size)` of the external byte
buffer removes `size` bytes starting at position `pos`. -/
def buffer_erase (b : List Byte) (pos : Nat) (size : Nat) : List Byte :=
  b.take pos ++ b.drop (pos + size)

/-- Modelled from the spec: `buffer_size(b)` of the external byte buffer. -/
def buffer_size (b : List Byte) : Nat := b.length

/-! ## Operations that dispatch nothing -/

/-- Source `reactor_stream_close_fd`. -/
def reactor_stream_close_fd (w : World) : World :=
  { w with
    registered := false
    fd := -1
    trace := w.trace ++ [Obs.fd_deregister w.fd, Obs.sys_close w.fd] }

/-- Source `reactor_stream_hold`. -/
def reactor_stream_hold (w : World) : World :=
  { w with ref := w.ref + 1 }

/-- Source `reactor_stream_write`. -/
def reactor_stream_write (data : List Byte) (w : World) : World :=
  { w with
    output := buffer_insert w.output (buffer_size w.output) data
    events := w.events ||| POLLOUT }

/-- Source `reactor_stream_write_notify`. -/
def reactor_stream_write_notify (w : World) : World :=
  { w with events := w.events ||| POLLOUT }

/-- Source `reactor_stream_data_consume`, on the payload last handed out;
`data->size` is a `size_t`. -/
def reactor_stream_data_consume (size : Nat) (w : World) : World :=
  { w with data_size := (w.data_size + SIZE_MOD - size % SIZE_MOD) % SIZE_MOD }

/-- The `while (size)` loop of `reactor_stream_flush`.  `base` is the offset
of the C pointer `base` from `buffer_data(&stream->output)` and `size` the
`ssize_t` counter.  Returns the final `size`. -/
def flush_loop (env : Env) : Nat → Nat → Int → World → Option (Int × World)
  | 0, _, _, _ => none
  | fuel + 1, base, size, w =>
    if size = 0 then some (size, w)
    else
      let handed := (w.output.drop base).take size.toNat
      let res := env.sys_write w.nwrite handed
      let w1 := { w with
        nwrite := w.nwrite + 1
        trace := w.trace ++ [Obs.sys_write w.fd handed res] }
      match res with
      | .fail e => some (size, { w1 with errno := e })
      | .ok n => flush_loop env fuel (base + n) (size - n) w1

/-! ## Operations that reach the callback -/

mutual

/-- Modelled from the spec: `reactor_user_dispatch` of the external dispatch
adapter "invokes [the callback] synchronously" with an event tag and payload.
The callback answers with actions, which are run in order against the
stream. -/
def reactor_user_dispatch (env : Env) : Nat → Event → List Byte → World → Option World
  | 0, _, _, _ => none
  | fuel + 1, ev, view, w =>
    let w1 := { w with
      ndispatch := w.ndispatch + 1
      trace := w.trace ++ [Obs.enter ev view w.state w.fd w.ref] }
    ((env.callback w.ndispatch ev view).foldlM
      (fun (acc : World) (a : Action) =>
        match a with
        | .close => reactor_stream_close env fuel acc
        | .write data => some (reactor_stream_write data acc)
        | .flush => reactor_stream_flush env fuel acc
        | .write_notify => some (reactor_stream_write_notify acc)
        | .hold => some (reactor_stream_hold acc)
        | .release => reactor_stream_release env fuel acc
        | .consume size => some (reactor_stream_data_consume size acc))
      w1).map
      (fun (w2 : World) => { w2 with trace := w2.trace ++ [Obs.leave ev] })

/-- Source `reactor_stream_error`. -/
def reactor_stream_error (env : Env) : Nat → World → Option World
  | 0, _ => none
  | fuel + 1, w =>
    reactor_user_dispatch env fuel Event.ERROR []
      { w with events := 0, state := State.ERROR }

/-- Source `reactor_stream_release`. -/
def reactor_stream_release (env : Env) : Nat → World → Option World
  | 0, _ => none
  | fuel + 1, w =>
    let w1 := { w with ref := w.ref - 1 }
    if w1.ref = 0 then
      let w2 := reactor_stream_close_fd w1
      let w3 := { w2 with input := [], trace := w2.trace ++ [Obs.destruct_input] }
      let w4 := { w3 with output := [], trace := w3.trace ++ [Obs.destruct_output] }
      let w5 := { w4 with state := State.CLOSED }
      reactor_user_dispatch env fuel Event.CLOSE [] w5
    else some w1

/-- Source `reactor_stream_close`. -/
def reactor_stream_close (env : Env) : Nat → World → Option World
  | 0, _ => none
  | fuel + 1, w =>
    if w.state.bits &&& State.CLOSED.bits ≠ 0 then some w
    else do
      let w1 := reactor_stream_hold w
      let w2 ←
        if w1.state.bits &&& (State.OPEN.bits ||| State.CLOSING.bits) ≠ 0 then do
          let a := { w1 with state := State.CLOSING }
          let b ← if buffer_size a.output ≠ 0 then reactor_stream_flush env fuel a else some a
          if b.state.bits &&& State.CLOSING.bits ≠ 0 ∧ buffer_size b.output = 0 then
            reactor_stream_release env fuel b
          else some b
        else some w1
      let w3 ←
        if w2.state.bits &&& State.ERROR.bits ≠ 0 then reactor_stream_release env fuel w2
        else some w2
      reactor_stream_release env fuel w3

/-- Source `reactor_stream_flush`.  The loop counter `size` stays between 0
and `buffer_size` as long as no `write` call reports more bytes than it was
handed, so the count `buffer_size - size` passed to `buffer_erase` is taken
without wrap-around.  `events &= ~POLLOUT` acts on the 16-bit `short events`
of `struct pollfd`: it clears the POLLOUT bit and keeps the others. -/
def reactor_stream_flush (env : Env) : Nat → World → Option World
  | 0, _ => none
  | fuel + 1, w => do
    let w0 := { w with errno := 0 }
    let (size, w1) ← flush_loop env fuel 0 (buffer_size w0.output) w0
    let w2 := { w1 with
      output := buffer_erase w1.output 0 ((buffer_size w1.output : Int) - size).toNat }
    if buffer_size w2.output = 0 then
      if w2.state = State.OPEN then
        reactor_user_dispatch env fuel Event.WRITE []
          { w2 with events := w2.events &&& (0xFFFF - POLLOUT) }
      else reactor_stream_close env fuel w2
    else if w2.errno = EAGAIN then
      reactor_user_dispatch env fuel Event.BLOCKED []
        { w2 with events := w2.events ||| POLLOUT }
    else do
      let w3 := reactor_stream_hold w2
      let saved_state := w3.state
      let w4 ← reactor_stream_error env fuel w3
      let w5 ← if saved_state = State.CLOSING then reactor_stream_close env fuel w4 else some w4
      reactor_stream_release env fuel w5

end

/-- Source `reactor_stream_event`: the handler the multiplexer calls with the
readiness mask `revents` of the descriptor. -/
def reactor_stream_event (env : Env) (fuel : Nat) (revents : Nat) (w : World) : Option World := do
  let w1 := reactor_stream_hold w
  let w2 ←
    if revents &&& (POLLERR ||| POLLNVAL) ≠ 0 then reactor_stream_error env fuel w1
    else do
      let a ← if revents &&& POLLOUT ≠ 0 then reactor_stream_flush env fuel w1 else some w1
      if revents &&& (POLLIN ||| POLLHUP) = POLLHUP then
        reactor_user_dispatch env fuel Event.HANGUP [] a
      else if revents &&& POLLIN ≠ 0 then
        let res := env.sys_read a.nread
        let b := { a with nread := a.nread + 1, trace := a.trace ++ [Obs.sys_read a.fd res] }
        match res with
        | .ok [] => reactor_user_dispatch env fuel Event.HANGUP [] b
        | .fail e =>
          let c := { b with errno := e }
          if c.errno ≠ EAGAIN then reactor_stream_error env fuel c else some c
        | .ok buffer =>
          if buffer_size b.input = 0 then do
            let c := { b with data_size := buffer.length }
            let d ← reactor_user_dispatch env fuel Event.READ buffer c
            if d.data_size ≠ 0 then
              some { d with
                input := buffer_insert d.input (buffer_size d.input) (buffer.take d.data_size) }
            else some d
          else do
            let c := { b with input := buffer_insert b.input (buffer_size b.input) buffer }
            let c1 := { c with data_size := buffer_size c.input }
            let d ← reactor_user_dispatch env fuel Event.READ c1.input c1
            some { d with
              input := buffer_erase d.input 0
                ((buffer_size d.input + SIZE_MOD - d.data_size % SIZE_MOD) % SIZE_MOD) }
      else some a
  reactor_stream_release env fuel w2

/-- Source `reactor_stream_open`, for a stream whose callback is the one of
the environment: the initial world of a stream on descriptor `fd`. -/
def reactor_stream_open (fd : Int) : World :=
  reactor_stream_hold
    { ref := 0
      state := State.OPEN
      fd := fd
      input := []
      output := []
      events := POLLIN
      registered := true
      errno := 0
      data_size := 0
      nwrite := 0
      nread := 0
      ndispatch := 0
      trace := [Obs.sys_fcntl fd, Obs.fd_register fd POLLIN] }

/-! ## Reading traces -/

/-- Number of times the callback was entered with event `ev`. -/
def dispatched (ev : Event) (t : List Obs) : Nat :=
  t.countP (fun o => match o with
    | .enter e _ _ _ _ => decide (e = ev)
    | _ => false)

/-- The events delivered to the callback, in order. -/
def events_of : List Obs → List Event
  | [] => []
  | .enter e _ _ _ _ :: t => e :: events_of t
  | _ :: t => events_of t

/-- The bytes the `write` calls of a trace took off the stream, in order: of
each range handed to `write`, the leading part the call reported written. -/
def written : List Obs → List Byte
  | [] => []
  | .sys_write _ handed (.ok n) :: t => handed.take n ++ written t
  | _ :: t => written t

/-- An environment with callback `cb` whose system calls follow fixed scripts
and would block once the scripts are used up: a convenience for concrete
runs. -/
def script_env (cb : Nat → Event → List Byte → List Action)
    (writes : List WriteRes) (reads : List ReadRes) : Env :=
  { callback := cb
    sys_write := fun i _ => writes.getD i (WriteRes.fail EAGAIN)
    sys_read := fun i => reads.getD i (ReadRes.fail EAGAIN) }

/-- The callback that ignores every event. -/
def idle : Nat → Event → List Byte → List Action := fun _ _ _ => []

/-- The READ payloads delivered to the callback, in order. -/
def read_views : List Obs → List (List Byte)
  | [] => []
  | .enter .READ view _ _ _ :: t => view :: read_views t
  | _ :: t => read_views t

/-- The callbacks that are still running each time the callback is entered
for `ev`: one entry per dispatch of `ev`, innermost caller first.  `stack`
holds the callbacks running before the trace starts. -/
def running_at (ev : Event) : List Event → List Obs → List (List Event)
  | _, [] => []
  | stack, .enter e _ _ _ _ :: t =>
    (if e = ev then [stack] else []) ++ running_at ev (e :: stack) t
  | stack, .leave _ :: t => running_at ev stack.tail t
  | stack, _ :: t => running_at ev stack t

/-! ## Concrete environments -/

/-- The bytes of "ping". -/
def ping : List Byte := [112, 105, 110, 103]

/-- A consumer that consumes one byte of the first READ payload and does
nothing else; the descriptor delivers "AB" and then "CD". -/
def env_consume_one : Env :=
  script_env (fun i _ _ => if i = 0 then [Action.consume 1] else []) []
    [ReadRes.ok [65, 66], ReadRes.ok [67, 68]]

/-- An idle consumer on a descriptor whose first `write` accepts four bytes. -/
def env_accept_four : Env :=
  script_env idle [WriteRes.ok 4] []

/-- A consumer that calls `reactor_stream_close` whenever it is told of an
ERROR; the first `write` would block and the second fails with `EPIPE`. -/
def env_close_on_error : Env :=
  script_env (fun _ ev _ => if ev = Event.ERROR then [Action.close] else [])
    [WriteRes.fail EAGAIN, WriteRes.fail EPIPE] []

/-- An idle consumer on a descriptor whose every `write` accepts one byte. -/
def env_one_byte : Env :=
  { callback := idle
    sys_write := fun _ _ => WriteRes.ok 1
    sys_read := fun _ => ReadRes.fail EAGAIN }

/-- An idle consumer on a descriptor whose `write` calls accept 2 bytes, then
would block, and from then on accept whatever they are handed. -/
def env_block_once : Env :=
  { callback := idle
    sys_write := fun i d =>
      if i = 0 then WriteRes.ok 2 else if i = 1 then WriteRes.fail EAGAIN
      else WriteRes.ok d.length
    sys_read := fun _ => ReadRes.fail EAGAIN }

/-- An idle consumer on a descriptor whose `write` calls accept 1 byte and
then fail with `EPIPE`, and whose `read` calls fail with `EBADF`. -/
def env_broken : Env :=
  { callback := idle
    sys_write := fun i _ => if i = 0 then WriteRes.ok 1 else WriteRes.fail EPIPE
    sys_read := fun _ => ReadRes.fail EBADF }

/-- A consumer that calls `reactor_stream_close` when it is told BLOCKED; the
first `write` would block and the second accepts one byte. -/
def env_close_on_blocked : Env :=
  script_env (fun _ ev _ => if ev = Event.BLOCKED then [Action.close] else [])
    [WriteRes.fail EAGAIN, WriteRes.ok 1] []

/-- The world after the terminal teardown of `w` by `reactor_stream_release`
when the CLOSE callback does nothing. -/
def torn_down (w : World) : World :=
  { w with
    ref := 0
    state := State.CLOSED
    fd := -1
    input := []
    output := []
    registered := false
    ndispatch := w.ndispatch + 1
    trace := w.trace ++ [Obs.fd_deregister w.fd, Obs.sys_close w.fd,
      Obs.destruct_input, Obs.destruct_output,
      Obs.enter Event.CLOSE [] State.CLOSED (-1) 0, Obs.leave Event.CLOSE] }

/-- The `write` calls of a loop run that starts at offset `base` of the
output buffer `out` and whose calls accept `ns` bytes in turn. -/
def accept_obs (fd : Int) (out : List Byte) : Nat → List Nat → List Obs
  | _, [] => []
  | base, n :: ns =>
    Obs.sys_write fd (out.drop base) (WriteRes.ok n) :: accept_obs fd out (base + n) ns

/-- The operating system accepts `ns` bytes in turn: the `write` call number
`i` is handed the output from offset `base` on (which is not empty) and takes
`n` of these bytes, the next call is handed the rest, and so on. -/
def accepts (env : Env) (out : List Byte) : Nat → Nat → List Nat → Prop
  | _, _, [] => True
  | i, base, n :: ns =>
    base < out.length ∧ base + n ≤ out.length ∧
      env.sys_write i (out.drop base) = WriteRes.ok n ∧ accepts env out (i + 1) (base + n) ns

/-- The world right after the scenario "open on `fd`, write "ping", readiness
POLLOUT with the write call accepting 4 bytes" when the consumer is idle. -/
def after_ping (fd : Int) : World :=
  { ref := 1
    state := State.OPEN
    fd := fd
    input := []
    output := []
    events := (POLLIN ||| POLLOUT) &&& (0xFFFF - POLLOUT)
    registered := true
    errno := 0
    data_size := 0
    nwrite := 1
    nread := 0
    ndispatch := 1
    trace := [Obs.sys_fcntl fd, Obs.fd_register fd POLLIN,
      Obs.sys_write fd ping (WriteRes.ok 4),
      Obs.enter Event.WRITE [] State.OPEN fd 2, Obs.leave Event.WRITE] }

/-- No `write` call from call number `first` on fails: handed a non-empty
range, each call accepts between 1 and all of the bytes it is handed. -/
def no_write_failure (env : Env) (first : Nat) : Prop :=
  ∀ i d, first ≤ i → d ≠ [] → ∃ n, env.sys_write i d = WriteRes.ok n ∧ 1 ≤ n ∧ n ≤ d.length

/-- What the claims say of a hard I/O failure that takes the stream from `w`
to `w1`: state ERROR, POLLOUT cleared from the interest mask, exactly one
ERROR and no CLOSE dispatched on the way, descriptor still attached and
registered, `ref` unchanged; and if that `ref` is 1, a following
`reactor_stream_close` tears the stream down, dispatching CLOSE once. -/
def hard_failure_outcome (env : Env) (fuel : Nat) (w w1 : World) : Prop :=
  w1.state = State.ERROR ∧ w1.events &&& POLLOUT = 0 ∧
  (∃ t, w1.trace = w.trace ++ t ∧ dispatched Event.ERROR t = 1 ∧
    dispatched Event.CLOSE t = 0 ∧ Obs.fd_deregister w.fd ∉ t ∧ Obs.sys_close w.fd ∉ t) ∧
  w1.fd = w.fd ∧ w1.registered = w.registered ∧ w1.ref = w.ref ∧
  (w.ref = 1 →
    reactor_stream_close env fuel w1 = some (torn_down w1) ∧
    (torn_down w1).state = State.CLOSED ∧ (torn_down w1).fd = -1 ∧
    dispatched Event.CLOSE (torn_down w1).trace = dispatched Event.CLOSE w1.trace + 1)

/-- Every `write` call of the trace is handed exactly the bytes of `data` that
the calls before it have not accepted, in their original order. -/
def hands_over (data : List Byte) : List Obs → Prop
  | [] => True
  | .sys_write _ handed (.ok n) :: t => handed = data ∧ hands_over (data.drop n) t
  | .sys_write _ handed (.fail _) :: t => handed = data ∧ hands_over data t
  | _ :: t => hands_over data t


/-! ## Further definitions used to state the theorems -/

/-- The `errno.h` value of a connection reset by the peer. -/
def ECONNRESET : Nat := 104

/-- An idle consumer on a descriptor whose first `write` would block, whose
second `write` fails with `EPIPE` and whose first `read` fails with
`ECONNRESET`. -/
def env_closing_failure : Env :=
  script_env idle [WriteRes.fail EAGAIN, WriteRes.fail EPIPE] [ReadRes.fail ECONNRESET]

/-- A consumer that calls `reactor_stream_close` when it is told BLOCKED; the
first `write` would block, the second accepts one byte, and the `read` that
follows on the closed descriptor fails with `EBADF`. -/
def env_close_on_blocked_badf : Env :=
  script_env (fun _ ev _ => if ev = Event.BLOCKED then [Action.close] else [])
    [WriteRes.fail EAGAIN, WriteRes.ok 1] [ReadRes.fail EBADF]

/-- Number of `read` and `write` system calls in a trace. -/
def io_calls (t : List Obs) : Nat :=
  t.countP (fun o => match o with
    | .sys_read _ _ => true
    | .sys_write _ _ _ => true
    | _ => false)

/-- Number of `read` system calls in a trace. -/
def read_calls (t : List Obs) : Nat :=
  t.countP (fun o => match o with
    | .sys_read _ _ => true
    | _ => false)

/-- An idle consumer on a descriptor at end of file: every `read` returns 0
bytes. -/
def env_eof : Env :=
  { callback := idle
    sys_write := fun _ _ => WriteRes.fail EAGAIN
    sys_read := fun _ => ReadRes.ok [] }

/-- An idle consumer on a descriptor whose every `write` reports 0 bytes
written. -/
def env_stalled : Env :=
  { callback := idle
    sys_write := fun _ _ => WriteRes.ok 0
    sys_read := fun _ => ReadRes.fail EAGAIN }

/-- Every `write` call handed a non-empty range either fails (`-1`) or accepts
between 1 and all of the bytes it is handed. -/
def write_contract (env : Env) : Prop :=
  ∀ i d, d ≠ [] →
    (∃ e, env.sys_write i d = WriteRes.fail e) ∨
    (∃ n, env.sys_write i d = WriteRes.ok n ∧ 1 ≤ n ∧ n ≤ d.length)


/-! ## Writes only on a stream that is not CLOSED

The spec documents as a precondition that the consumer calls nothing but
`reactor_stream_close` on a CLOSED stream.  The checks below follow a run call
by call, on the worlds the calls are made on, and are true when no
`reactor_stream_write` of the run, from inside a callback or from outside, is
made on a CLOSED stream. -/

/-- In state CLOSED the output buffer is empty; in other words a non-empty
output buffer means state OPEN, CLOSING or ERROR. -/
def closed_without_output (w : World) : Prop :=
  w.state = State.CLOSED → w.output = []

/-- A check on a call and on what follows it: `ok` is the check of the call,
`x` its result and `k` the check of what follows on that result; after a call
that does not return nothing is left to check. -/
def and_then (ok : Bool) (x : Option World) (k : World → Bool) : Bool :=
  ok && match x with
    | some a => k a
    | none => true

/-- The same for a call `f w` that is made only when `c` holds; otherwise
what follows goes on from `w`. -/
def and_then_if (c : Prop) [Decidable c] (ok : World → Bool) (f : World → Option World)
    (w : World) (k : World → Bool) : Bool :=
  if c then and_then (ok w) (f w) k else k w

/-- The actions of one callback, run in order from `acc` as
`reactor_user_dispatch` runs them: every `write` among them finds the stream
not CLOSED, and the calls to close, flush and release pass their checks `cl`,
`fl` and `rl`. -/
def actions_writes_open (env : Env) (fuel : Nat) (cl fl rl : World → Bool) :
    List Action → World → Bool
  | [], _ => true
  | .close :: rest, acc =>
    and_then (cl acc) (reactor_stream_close env fuel acc)
      (actions_writes_open env fuel cl fl rl rest)
  | .write data :: rest, acc =>
    decide (acc.state ≠ State.CLOSED) &&
      actions_writes_open env fuel cl fl rl rest (reactor_stream_write data acc)
  | .flush :: rest, acc =>
    and_then (fl acc) (reactor_stream_flush env fuel acc)
      (actions_writes_open env fuel cl fl rl rest)
  | .write_notify :: rest, acc =>
    actions_writes_open env fuel cl fl rl rest (reactor_stream_write_notify acc)
  | .hold :: rest, acc =>
    actions_writes_open env fuel cl fl rl rest (reactor_stream_hold acc)
  | .release :: rest, acc =>
    and_then (rl acc) (reactor_stream_release env fuel acc)
      (actions_writes_open env fuel cl fl rl rest)
  | .consume size :: rest, acc =>
    actions_writes_open env fuel cl fl rl rest (reactor_stream_data_consume size acc)

mutual

/-- Check of `reactor_user_dispatch env fuel ev view w`: the actions of the
callback it enters. -/
def dispatch_writes_open (env : Env) : Nat → Event → List Byte → World → Bool
  | 0, _, _, _ => true
  | fuel + 1, ev, view, w =>
    actions_writes_open env fuel (close_writes_open env fuel) (flush_writes_open env fuel)
      (release_writes_open env fuel) (env.callback w.ndispatch ev view)
      { w with
        ndispatch := w.ndispatch + 1
        trace := w.trace ++ [Obs.enter ev view w.state w.fd w.ref] }

/-- Check of `reactor_stream_error env fuel w`: its ERROR dispatch. -/
def error_writes_open (env : Env) : Nat → World → Bool
  | 0, _ => true
  | fuel + 1, w =>
    dispatch_writes_open env fuel Event.ERROR [] { w with events := 0, state := State.ERROR }

/-- Check of `reactor_stream_release env fuel w`: its CLOSE dispatch, when
the last reference goes. -/
def release_writes_open (env : Env) : Nat → World → Bool
  | 0, _ => true
  | fuel + 1, w =>
    let w1 := { w with ref := w.ref - 1 }
    if w1.ref = 0 then
      let w2 := reactor_stream_close_fd w1
      let w3 := { w2 with input := [], trace := w2.trace ++ [Obs.destruct_input] }
      let w4 := { w3 with output := [], trace := w3.trace ++ [Obs.destruct_output] }
      let w5 := { w4 with state := State.CLOSED }
      dispatch_writes_open env fuel Event.CLOSE [] w5
    else true

/-- Check of `reactor_stream_close env fuel w`: its flush and its releases,
in the order of the source. -/
def close_writes_open (env : Env) : Nat → World → Bool
  | 0, _ => true
  | fuel + 1, w =>
    if w.state.bits &&& State.CLOSED.bits ≠ 0 then true
    else
      let w1 := reactor_stream_hold w
      let releases := fun (w2 : World) =>
        and_then_if (w2.state.bits &&& State.ERROR.bits ≠ 0)
          (release_writes_open env fuel) (reactor_stream_release env fuel) w2
          (fun w3 => release_writes_open env fuel w3)
      if w1.state.bits &&& (State.OPEN.bits ||| State.CLOSING.bits) ≠ 0 then
        let a := { w1 with state := State.CLOSING }
        and_then_if (buffer_size a.output ≠ 0)
          (flush_writes_open env fuel) (reactor_stream_flush env fuel) a
          (fun b =>
            and_then_if (b.state.bits &&& State.CLOSING.bits ≠ 0 ∧ buffer_size b.output = 0)
              (release_writes_open env fuel) (reactor_stream_release env fuel) b releases)
      else releases w1

/-- Check of `reactor_stream_flush env fuel w`: the dispatch, close, error
transition and release that follow its write loop. -/
def flush_writes_open (env : Env) : Nat → World → Bool
  | 0, _ => true
  | fuel + 1, w =>
    let w0 := { w with errno := 0 }
    match flush_loop env fuel 0 (buffer_size w0.output) w0 with
    | none => true
    | some (size, w1) =>
      let w2 := { w1 with
        output := buffer_erase w1.output 0 ((buffer_size w1.output : Int) - size).toNat }
      if buffer_size w2.output = 0 then
        if w2.state = State.OPEN then
          dispatch_writes_open env fuel Event.WRITE []
            { w2 with events := w2.events &&& (0xFFFF - POLLOUT) }
        else close_writes_open env fuel w2
      else if w2.errno = EAGAIN then
        dispatch_writes_open env fuel Event.BLOCKED []
          { w2 with events := w2.events ||| POLLOUT }
      else
        let w3 := reactor_stream_hold w2
        and_then (error_writes_open env fuel w3) (reactor_stream_error env fuel w3)
          (fun w4 =>
            and_then_if (w3.state = State.CLOSING)
              (close_writes_open env fuel) (reactor_stream_close env fuel) w4
              (fun w5 => release_writes_open env fuel w5))

end

/-- Check of `reactor_stream_event env fuel revents w`: the error transition
or the flush, the HANGUP or READ dispatch, and the final release. -/
def event_writes_open (env : Env) (fuel : Nat) (revents : Nat) (w : World) : Bool :=
  let w1 := reactor_stream_hold w
  if revents &&& (POLLERR ||| POLLNVAL) ≠ 0 then
    and_then (error_writes_open env fuel w1) (reactor_stream_error env fuel w1)
      (release_writes_open env fuel)
  else
    and_then_if (revents &&& POLLOUT ≠ 0)
      (flush_writes_open env fuel) (reactor_stream_flush env fuel) w1
      (fun a =>
        if revents &&& (POLLIN ||| POLLHUP) = POLLHUP then
          and_then (dispatch_writes_open env fuel Event.HANGUP [] a)
            (reactor_user_dispatch env fuel Event.HANGUP [] a) (release_writes_open env fuel)
        else if revents &&& POLLIN ≠ 0 then
          let res := env.sys_read a.nread
          let b := { a with nread := a.nread + 1, trace := a.trace ++ [Obs.sys_read a.fd res] }
          match res with
          | .ok [] =>
            and_then (dispatch_writes_open env fuel Event.HANGUP [] b)
              (reactor_user_dispatch env fuel Event.HANGUP [] b) (release_writes_open env fuel)
          | .fail e =>
            let c := { b with errno := e }
            and_then_if (c.errno ≠ EAGAIN)
              (error_writes_open env fuel) (reactor_stream_error env fuel) c
              (release_writes_open env fuel)
          | .ok buffer =>
            if buffer_size b.input = 0 then
              let c := { b with data_size := buffer.length }
              and_then (dispatch_writes_open env fuel Event.READ buffer c)
                (reactor_user_dispatch env fuel Event.READ buffer c)
                (fun d =>
                  release_writes_open env fuel
                    (if d.data_size ≠ 0 then
                      { d with
                        input := buffer_insert d.input (buffer_size d.input)
                          (buffer.take d.data_size) }
                    else d))
            else
              let c := { b with input := buffer_insert b.input (buffer_size b.input) buffer }
              let c1 := { c with data_size := buffer_size c.input }
              and_then (dispatch_writes_open env fuel Event.READ c1.input c1)
                (reactor_user_dispatch env fuel Event.READ c1.input c1)
                (fun d =>
                  release_writes_open env fuel
                    { d with
                      input := buffer_erase d.input 0
                        ((buffer_size d.input + SIZE_MOD - d.data_size % SIZE_MOD) % SIZE_MOD) })
        else release_writes_open env fuel a)

/-- A public operation on the stream, or a readiness notification delivered
by the multiplexer. -/
inductive Op
  | write (data : List Byte)
  | write_notify
  | flush
  | close
  | hold
  | release
  | data_consume (size : Nat)
  | event (revents : Nat)
  deriving DecidableEq, Repr

/-- Runs one public operation or notification. -/
def run_op (env : Env) (fuel : Nat) : Op → World → Option World
  | .write data, w => some (reactor_stream_write data w)
  | .write_notify, w => some (reactor_stream_write_notify w)
  | .flush, w => reactor_stream_flush env fuel w
  | .close, w => reactor_stream_close env fuel w
  | .hold, w => some (reactor_stream_hold w)
  | .release, w => reactor_stream_release env fuel w
  | .data_consume size, w => some (reactor_stream_data_consume size w)
  | .event revents, w => reactor_stream_event env fuel revents w

/-- Check of one public operation or notification made on `w`: a `write`
finds the stream not CLOSED, and so does every `write` a callback makes while
the operation runs. -/
def op_writes_open (env : Env) (fuel : Nat) : Op → World → Bool
  | .write _, w => decide (w.state ≠ State.CLOSED)
  | .write_notify, _ => true
  | .flush, w => flush_writes_open env fuel w
  | .close, w => close_writes_open env fuel w
  | .hold, _ => true
  | .release, w => release_writes_open env fuel w
  | .data_consume _, _ => true
  | .event revents, w => event_writes_open env fuel revents w

/-- The worlds an execution can be in on return from a public operation or
notification: the stream is opened, and then any operation that returns may
follow, as long as `reactor_stream_write` is never called on a CLOSED
stream. -/
inductive Reachable (env : Env) : World → Prop
  | opened (fd : Int) : Reachable env (reactor_stream_open fd)
  | step {w w1 : World} (op : Op) (fuel : Nat) :
      Reachable env w → op_writes_open env fuel op w = true →
      run_op env fuel op w = some w1 → Reachable env w1

/-- An echo consumer: it writes back what it is given to READ and closes the
stream on HANGUP.  The first read delivers "A", the second is at end of
file; the first write accepts one byte. -/
def env_echo : Env :=
  script_env
    (fun _ ev view =>
      if ev = Event.READ then [Action.write view, Action.consume view.length]
      else if ev = Event.HANGUP then [Action.close]
      else [])
    [WriteRes.ok 1] [ReadRes.ok [65], ReadRes.ok []]

/-- The echo consumer's stream after its first notification: "A" was read and
handed to READ, and the callback queued it for writing. -/
def echo_queued : World :=
  { reactor_stream_open 3 with
    output := [65]
    events := POLLIN ||| POLLOUT
    nread := 1
    ndispatch := 1
    trace := (reactor_stream_open 3).trace ++ [Obs.sys_read 3 (ReadRes.ok [65]),
      Obs.enter Event.READ [65] State.OPEN 3 2, Obs.leave Event.READ] }

/-- The echo consumer's stream after the queued byte was written out. -/
def echo_flushed : World :=
  { echo_queued with
    output := []
    events := POLLIN
    nwrite := 1
    ndispatch := 2
    trace := echo_queued.trace ++ [Obs.sys_write 3 [65] (WriteRes.ok 1),
      Obs.enter Event.WRITE [] State.OPEN 3 2, Obs.leave Event.WRITE] }

/-- The echo consumer's stream after the peer hung up and the HANGUP callback
closed it. -/
def echo_closed : World :=
  { echo_flushed with
    ref := 0
    state := State.CLOSED
    fd := -1
    registered := false
    nread := 2
    ndispatch := 4
    trace := echo_flushed.trace ++ [Obs.sys_read 3 (ReadRes.ok []),
      Obs.enter Event.HANGUP [] State.OPEN 3 2, Obs.leave Event.HANGUP,
      Obs.fd_deregister 3, Obs.sys_close 3, Obs.destruct_input, Obs.destruct_output,
      Obs.enter Event.CLOSE [] State.CLOSED (-1) 0, Obs.leave Event.CLOSE] }

/-- A consumer that breaks the precondition: its CLOSE callback calls
`reactor_stream_write` on the stream that was just closed. -/
def env_write_in_close : Env :=
  script_env (fun _ ev _ => if ev = Event.CLOSE then [Action.write [120]] else []) [] []

/-! ## Theorems -/

/-! ## Unfolding lemmas

One step of each function of the mutual block, stated once and used in place
of the definitions from here on. -/

theorem dispatch_succ (env : Env) (fuel : Nat) (ev : Event) (view : List Byte) (w : World) :
    reactor_user_dispatch env (fuel + 1) ev view w =
      ((env.callback w.ndispatch ev view).foldlM
        (fun (acc : World) (a : Action) =>
          match a with
          | .close => reactor_stream_close env fuel acc
          | .write data => some (reactor_stream_write data acc)
          | .flush => reactor_stream_flush env fuel acc
          | .write_notify => some (reactor_stream_write_notify acc)
          | .hold => some (reactor_stream_hold acc)
          | .release => reactor_stream_release env fuel acc
          | .consume size => some (reactor_stream_data_consume size acc))
        { w with
          ndispatch := w.ndispatch + 1
          trace := w.trace ++ [Obs.enter ev view w.state w.fd w.ref] }).map
        (fun (w2 : World) => { w2 with trace := w2.trace ++ [Obs.leave ev] }) := by
  rw [reactor_user_dispatch]

theorem error_succ (env : Env) (fuel : Nat) (w : World) :
    reactor_stream_error env (fuel + 1) w =
      reactor_user_dispatch env fuel Event.ERROR []
        { w with events := 0, state := State.ERROR } := by
  rw [reactor_stream_error]

theorem release_succ (env : Env) (fuel : Nat) (w : World) :
    reactor_stream_release env (fuel + 1) w =
      if w.ref - 1 = 0 then
        reactor_user_dispatch env fuel Event.CLOSE []
          { w with
            ref := w.ref - 1
            state := State.CLOSED
            fd := -1
            input := []
            output := []
            registered := false
            trace := w.trace ++ [Obs.fd_deregister w.fd, Obs.sys_close w.fd,
              Obs.destruct_input, Obs.destruct_output] }
      else some { w with ref := w.ref - 1 } := by
  rw [reactor_stream_release]
  simp [reactor_stream_close_fd]

theorem close_succ (env : Env) (fuel : Nat) (w : World) :
    reactor_stream_close env (fuel + 1) w =
      (if w.state.bits &&& State.CLOSED.bits ≠ 0 then some w
      else do
        let w1 := reactor_stream_hold w
        let w2 ←
          if w1.state.bits &&& (State.OPEN.bits ||| State.CLOSING.bits) ≠ 0 then do
            let a := { w1 with state := State.CLOSING }
            let b ← if buffer_size a.output ≠ 0 then reactor_stream_flush env fuel a else some a
            if b.state.bits &&& State.CLOSING.bits ≠ 0 ∧ buffer_size b.output = 0 then
              reactor_stream_release env fuel b
            else some b
          else some w1
        let w3 ←
          if w2.state.bits &&& State.ERROR.bits ≠ 0 then reactor_stream_release env fuel w2
          else some w2
        reactor_stream_release env fuel w3) := by
  rw [reactor_stream_close]

theorem flush_succ (env : Env) (fuel : Nat) (w : World) :
    reactor_stream_flush env (fuel + 1) w = (do
      let w0 := { w with errno := 0 }
      let (size, w1) ← flush_loop env fuel 0 (buffer_size w0.output) w0
      let w2 := { w1 with
        output := buffer_erase w1.output 0
          ((buffer_size w1.output : Int) - size).toNat }
      if buffer_size w2.output = 0 then
        if w2.state = State.OPEN then
          reactor_user_dispatch env fuel Event.WRITE []
            { w2 with events := w2.events &&& (0xFFFF - POLLOUT) }
        else reactor_stream_close env fuel w2
      else if w2.errno = EAGAIN then
        reactor_user_dispatch env fuel Event.BLOCKED []
          { w2 with events := w2.events ||| POLLOUT }
      else do
        let w3 := reactor_stream_hold w2
        let saved_state := w3.state
        let w4 ← reactor_stream_error env fuel w3
        let w5 ← if saved_state = State.CLOSING then reactor_stream_close env fuel w4 else some w4
        reactor_stream_release env fuel w5) := by
  rw [reactor_stream_flush]

theorem dispatch_zero (env : Env) (ev : Event) (view : List Byte) (w : World) :
    reactor_user_dispatch env 0 ev view w = none := by
  rw [reactor_user_dispatch]

theorem error_zero (env : Env) (w : World) : reactor_stream_error env 0 w = none := by
  rw [reactor_stream_error]

theorem release_zero (env : Env) (w : World) : reactor_stream_release env 0 w = none := by
  rw [reactor_stream_release]

theorem close_zero (env : Env) (w : World) : reactor_stream_close env 0 w = none := by
  rw [reactor_stream_close]

theorem flush_zero (env : Env) (w : World) : reactor_stream_flush env 0 w = none := by
  rw [reactor_stream_flush]

attribute [irreducible] reactor_user_dispatch reactor_stream_error reactor_stream_release
  reactor_stream_close reactor_stream_flush

/-! ## The state tests of the source -/

theorem test_closed (s : State) :
    (s.bits &&& State.CLOSED.bits = 0) = (s ≠ State.CLOSED) := by
  cases s <;> decide

theorem test_open_closing (s : State) :
    (s.bits &&& (State.OPEN.bits ||| State.CLOSING.bits) = 0) =
      (s ≠ State.OPEN ∧ s ≠ State.CLOSING) := by
  cases s <;> decide

theorem test_closing (s : State) :
    (s.bits &&& State.CLOSING.bits = 0) = (s ≠ State.CLOSING) := by
  cases s <;> decide

theorem test_error (s : State) :
    (s.bits &&& State.ERROR.bits = 0) = (s ≠ State.ERROR) := by
  cases s <;> decide

theorem bits_ne_zero (s : State) : (s.bits = 0) = False := by
  cases s <;> decide

theorem dispatch_idle (env : Env) (fuel : Nat) (ev : Event) (view : List Byte) (w : World)
    (h : env.callback w.ndispatch ev view = []) :
    reactor_user_dispatch env (fuel + 1) ev view w =
      some { w with
        ndispatch := w.ndispatch + 1
        trace := w.trace ++ [Obs.enter ev view w.state w.fd w.ref, Obs.leave ev] } := by
  rw [dispatch_succ]
  simp [h]

theorem release_keep (env : Env) (fuel : Nat) (w : World) (h : w.ref - 1 ≠ 0) :
    reactor_stream_release env (fuel + 1) w = some { w with ref := w.ref - 1 } := by
  rw [release_succ]
  simp [h]

theorem release_last (env : Env) (fuel : Nat) (w : World) (h : w.ref - 1 = 0) :
    reactor_stream_release env (fuel + 1) w =
      reactor_user_dispatch env fuel Event.CLOSE []
        { w with
          ref := 0
          state := State.CLOSED
          fd := -1
          input := []
          output := []
          registered := false
          trace := w.trace ++ [Obs.fd_deregister w.fd, Obs.sys_close w.fd,
            Obs.destruct_input, Obs.destruct_output] } := by
  rw [release_succ]
  simp [h]

theorem release_last_idle (env : Env) (fuel : Nat) (w : World) (h : w.ref - 1 = 0)
    (hcb : env.callback w.ndispatch Event.CLOSE [] = []) :
    reactor_stream_release env (fuel + 2) w = some (torn_down w) := by
  rw [release_last env (fuel + 1) w h, dispatch_idle]
  · simp [torn_down]
  · simpa using hcb

theorem close_closed (env : Env) (fuel : Nat) (w : World) (h : w.state = State.CLOSED) :
    reactor_stream_close env (fuel + 1) w = some w := by
  rw [close_succ]
  simp [h, test_closed, bits_ne_zero]

theorem close_quiet (env : Env) (fuel : Nat) (w : World)
    (hs : w.state ≠ State.CLOSED) (hout : w.state = State.ERROR ∨ w.output = [])
    (href : w.ref ≠ 0) (href1 : w.ref ≠ 1) :
    reactor_stream_close env (fuel + 2) w =
      some { w with
        ref := w.ref - 1
        state := if w.state = State.ERROR then State.ERROR else State.CLOSING } := by
  obtain ⟨ref, state, fd, input, output, events, registered, errno, data_size, nwrite,
    nread, ndispatch, trace⟩ := w
  simp only at hs hout href href1
  have h1 : ref - 1 ≠ 0 := by omega
  rw [close_succ]
  cases state <;>
    simp_all [test_closed, test_open_closing, test_closing, test_error, bits_ne_zero,
      reactor_stream_hold, buffer_size, release_keep]

theorem close_last (env : Env) (fuel : Nat) (w : World)
    (hs : w.state ≠ State.CLOSED) (hout : w.state = State.ERROR ∨ w.output = [])
    (href : w.ref = 1) (hcb : env.callback w.ndispatch Event.CLOSE [] = []) :
    reactor_stream_close env (fuel + 3) w = some (torn_down w) := by
  obtain ⟨ref, state, fd, input, output, events, registered, errno, data_size, nwrite,
    nread, ndispatch, trace⟩ := w
  simp only at hs hout href hcb
  subst href
  rw [close_succ]
  cases state <;>
    simp_all [test_closed, test_open_closing, test_closing, test_error, bits_ne_zero,
      reactor_stream_hold, buffer_size, release_keep, release_last_idle, torn_down]

/-! ## The write loop -/

theorem flush_loop_succ (env : Env) (fuel base : Nat) (size : Int) (w : World) :
    flush_loop env (fuel + 1) base size w =
      if size = 0 then some (size, w)
      else
        match env.sys_write w.nwrite ((w.output.drop base).take size.toNat) with
        | .fail e => some (size, { w with
            nwrite := w.nwrite + 1
            trace := w.trace ++
              [Obs.sys_write w.fd ((w.output.drop base).take size.toNat) (WriteRes.fail e)]
            errno := e })
        | .ok n => flush_loop env fuel (base + n) (size - n) { w with
            nwrite := w.nwrite + 1
            trace := w.trace ++
              [Obs.sys_write w.fd ((w.output.drop base).take size.toNat) (WriteRes.ok n)] } := by
  rw [flush_loop]
  split
  · rfl
  · cases h : env.sys_write w.nwrite ((w.output.drop base).take size.toNat) <;> simp [h]

theorem handed_eq (out : List Byte) (base : Nat) (size : Int)
    (h : (base : Int) + size = out.length) :
    (out.drop base).take size.toNat = out.drop base := by
  apply List.take_of_length_le
  simp only [List.length_drop]
  omega

theorem flush_loop_accepts (env : Env) :
    ∀ (ns : List Nat) (fuel base : Nat) (size : Int) (w : World),
      accepts env w.output w.nwrite base ns → (base : Int) + size = w.output.length →
      flush_loop env (fuel + ns.length) base size w =
        flush_loop env fuel (base + ns.sum) (size - (ns.sum : Nat)) { w with
          nwrite := w.nwrite + ns.length
          trace := w.trace ++ accept_obs w.fd w.output base ns } := by
  intro ns
  induction ns with
  | nil =>
    intro fuel base size w _ _
    simp [accept_obs]
  | cons n ns ih =>
    intro fuel base size w hacc hinv
    obtain ⟨hlt, hle, hres, hrest⟩ := hacc
    have hne : size ≠ 0 := by omega
    rw [List.length_cons, ← Nat.add_assoc, flush_loop_succ, if_neg hne, handed_eq _ _ _ hinv, hres]
    simp only
    rw [ih fuel (base + n) (size - n) _ hrest (by simp only []; push_cast; omega)]
    simp only [List.sum_cons, accept_obs, List.append_assoc, List.singleton_append,
      Nat.add_assoc, Nat.add_comm 1]
    have hsz : size - (n : Int) - ((ns.sum : Nat) : Int) = size - ((n + ns.sum : Nat) : Int) := by
      push_cast
      omega
    rw [hsz]

theorem flush_loop_drained (env : Env) (ns : List Nat) (fuel : Nat) (w : World)
    (hacc : accepts env w.output w.nwrite 0 ns) (hsum : ns.sum = w.output.length)
    (hf : ns.length + 1 ≤ fuel) :
    flush_loop env fuel 0 (buffer_size w.output) w =
      some (0, { w with
        nwrite := w.nwrite + ns.length
        trace := w.trace ++ accept_obs w.fd w.output 0 ns }) := by
  obtain ⟨f, rfl⟩ : ∃ f, fuel = (f + 1) + ns.length := ⟨fuel - ns.length - 1, by omega⟩
  rw [flush_loop_accepts env ns (f + 1) 0 _ w hacc (by simp [buffer_size]), flush_loop_succ]
  simp [buffer_size, hsum]

theorem flush_loop_failed (env : Env) (ns : List Nat) (e : Nat) (fuel : Nat) (w : World)
    (hacc : accepts env w.output w.nwrite 0 ns) (hsum : ns.sum < w.output.length)
    (hfail : env.sys_write (w.nwrite + ns.length) (w.output.drop ns.sum) = WriteRes.fail e)
    (hf : ns.length + 1 ≤ fuel) :
    flush_loop env fuel 0 (buffer_size w.output) w =
      some (((w.output.length - ns.sum : Nat) : Int), { w with
        nwrite := w.nwrite + ns.length + 1
        errno := e
        trace := w.trace ++ accept_obs w.fd w.output 0 ns ++
          [Obs.sys_write w.fd (w.output.drop ns.sum) (WriteRes.fail e)] }) := by
  obtain ⟨f, rfl⟩ : ∃ f, fuel = (f + 1) + ns.length := ⟨fuel - ns.length - 1, by omega⟩
  rw [flush_loop_accepts env ns (f + 1) 0 _ w hacc (by simp [buffer_size]), flush_loop_succ]
  have hne : ((buffer_size w.output : Nat) : Int) - ((ns.sum : Nat) : Int) ≠ 0 := by
    simp only [buffer_size]; omega
  rw [if_neg hne]
  simp only [Nat.zero_add]
  rw [handed_eq _ _ _ (by simp only [buffer_size]; omega), hfail]
  simp only [buffer_size]
  congr 2
  omega

/-! ## Flush -/

theorem flush_drained_open (env : Env) (ns : List Nat) (fuel : Nat) (w : World)
    (hs : w.state = State.OPEN)
    (hacc : accepts env w.output w.nwrite 0 ns) (hsum : ns.sum = w.output.length)
    (hcb : env.callback w.ndispatch Event.WRITE [] = [])
    (hf : ns.length + 2 ≤ fuel) :
    reactor_stream_flush env fuel w =
      some { w with
        errno := 0
        output := []
        events := w.events &&& (0xFFFF - POLLOUT)
        nwrite := w.nwrite + ns.length
        ndispatch := w.ndispatch + 1
        trace := w.trace ++ accept_obs w.fd w.output 0 ns ++
          [Obs.enter Event.WRITE [] State.OPEN w.fd w.ref, Obs.leave Event.WRITE] } := by
  obtain ⟨f, rfl⟩ : ∃ f, fuel = (f + 1) + 1 := ⟨fuel - 2, by omega⟩
  rw [flush_succ]
  dsimp only
  rw [flush_loop_drained env ns (f + 1) { w with errno := 0 } hacc hsum (by omega)]
  simp [buffer_size, buffer_erase, hs, dispatch_idle, hcb]

theorem flush_blocked (env : Env) (ns : List Nat) (fuel : Nat) (w : World)
    (hacc : accepts env w.output w.nwrite 0 ns) (hsum : ns.sum < w.output.length)
    (hfail : env.sys_write (w.nwrite + ns.length) (w.output.drop ns.sum)
      = WriteRes.fail EAGAIN)
    (hcb : env.callback w.ndispatch Event.BLOCKED [] = [])
    (hf : ns.length + 2 ≤ fuel) :
    reactor_stream_flush env fuel w =
      some { w with
        errno := EAGAIN
        output := w.output.drop ns.sum
        events := w.events ||| POLLOUT
        nwrite := w.nwrite + ns.length + 1
        ndispatch := w.ndispatch + 1
        trace := w.trace ++ accept_obs w.fd w.output 0 ns ++
          [Obs.sys_write w.fd (w.output.drop ns.sum) (WriteRes.fail EAGAIN),
           Obs.enter Event.BLOCKED [] w.state w.fd w.ref, Obs.leave Event.BLOCKED] } := by
  obtain ⟨f, rfl⟩ : ∃ f, fuel = (f + 1) + 1 := ⟨fuel - 2, by omega⟩
  rw [flush_succ]
  dsimp only
  rw [flush_loop_failed env ns EAGAIN (f + 1) { w with errno := 0 } hacc hsum hfail (by omega)]
  have h1 : ((w.output.length : Int) - ((w.output.length - ns.sum : Nat) : Int)).toNat
      = ns.sum := by omega
  have h2 : ¬ w.output.length ≤ ns.sum := by omega
  have h3 : w.output.length - ns.sum ≠ 0 := by omega
  simp [buffer_size, buffer_erase, h1, h2, h3, dispatch_idle, hcb]

theorem flush_failed (env : Env) (ns : List Nat) (e : Nat) (fuel : Nat) (w : World)
    (hs : w.state ≠ State.CLOSING) (href : w.ref ≠ 0)
    (hacc : accepts env w.output w.nwrite 0 ns) (hsum : ns.sum < w.output.length)
    (hfail : env.sys_write (w.nwrite + ns.length) (w.output.drop ns.sum) = WriteRes.fail e)
    (he : e ≠ EAGAIN)
    (hcb : env.callback w.ndispatch Event.ERROR [] = [])
    (hf : ns.length + 2 ≤ fuel) (hf3 : 3 ≤ fuel) :
    reactor_stream_flush env fuel w =
      some { w with
        errno := e
        output := w.output.drop ns.sum
        events := 0
        state := State.ERROR
        nwrite := w.nwrite + ns.length + 1
        ndispatch := w.ndispatch + 1
        trace := w.trace ++ accept_obs w.fd w.output 0 ns ++
          [Obs.sys_write w.fd (w.output.drop ns.sum) (WriteRes.fail e),
           Obs.enter Event.ERROR [] State.ERROR w.fd (w.ref + 1), Obs.leave Event.ERROR] } := by
  obtain ⟨f, rfl⟩ : ∃ f, fuel = (f + 1) + 1 + 1 := ⟨fuel - 3, by omega⟩
  rw [flush_succ]
  dsimp only
  rw [flush_loop_failed env ns e (f + 1 + 1) { w with errno := 0 } hacc hsum hfail (by omega)]
  have h1 : ((w.output.length : Int) - ((w.output.length - ns.sum : Nat) : Int)).toNat
      = ns.sum := by omega
  have h2 : ¬ w.output.length ≤ ns.sum := by omega
  have h3 : w.output.length - ns.sum ≠ 0 := by omega
  simp [buffer_size, buffer_erase, h1, h2, h3, he, hs, reactor_stream_hold, error_succ,
    dispatch_idle, hcb, release_keep, href]

/-! ## Defects shown by evaluation -/

/-- C1 (the code departs from the claim): on a fresh OPEN stream, arrival "AB"
of which the READ callback consumes 1 byte, followed by arrival "CD", gives a
second READ view of "ACD", not "BCD": the zero-copy path re-buffers the first
`data.size` bytes of the scratch buffer, that is the consumed byte. -/
theorem coalescing_fast_path_redelivers_head :
    ((reactor_stream_event env_consume_one 4 POLLIN (reactor_stream_open 3)).bind
      (reactor_stream_event env_consume_one 4 POLLIN)).map
        (fun w => (read_views w.trace, w.input))
      = some ([[65, 66], [65, 67, 68]], [65, 67, 68]) := by
  decide!

/-- C5 (the code departs from the claim): open, write "ping", close, with the
write call accepting all 4 bytes: the stream is torn down and `ref` ends at
`-1`; `reactor_stream_close` has released two references. -/
theorem close_after_drain_leaves_negative_ref :
    (reactor_stream_close env_accept_four 5
        (reactor_stream_write ping (reactor_stream_open 3))).map
      (fun w => (w.ref, w.state, events_of w.trace))
      = some (-1, State.CLOSED, [Event.CLOSE]) := by
  decide!

/-- C8 (the code departs from the claim): the callback is entered again after
CLOSE.  First run: open, write "x", close while the write would block (the
stream is CLOSING with `ref = 1`), then a readiness notification
POLLOUT|POLLHUP whose write fails with EPIPE and whose ERROR callback calls
close: HANGUP is dispatched after CLOSE.  Second run: open, write "x", then a
readiness notification POLLOUT|POLLHUP whose first write would block, whose
BLOCKED callback calls close, and whose second write accepts the byte: again
HANGUP is dispatched after CLOSE. -/
theorem hangup_dispatched_after_close :
    ((reactor_stream_close env_close_on_error 8
        (reactor_stream_write [120] (reactor_stream_open 3))).bind
      (reactor_stream_event env_close_on_error 8 (POLLOUT ||| POLLHUP))).map
      (fun w => (events_of w.trace, w.trace.getLast?, w.ref))
      = some ([Event.BLOCKED, Event.ERROR, Event.CLOSE, Event.HANGUP],
          some (Obs.leave Event.HANGUP), -1) ∧
    (reactor_stream_event env_close_on_blocked 8 (POLLOUT ||| POLLHUP)
        (reactor_stream_write [120] (reactor_stream_open 3))).map
      (fun w => (events_of w.trace, w.trace.getLast?, w.ref))
      = some ([Event.BLOCKED, Event.CLOSE, Event.HANGUP],
          some (Obs.leave Event.HANGUP), -1) := by
  decide!

/-! ## Hold and release -/

/-- C6: `reactor_stream_hold` only increments `ref`.  `reactor_stream_release`
decrements `ref`; when the new value is not zero it changes nothing else and
dispatches nothing; when it is zero it deregisters and closes the descriptor
(`fd` becomes `-1`), destroys the input and the output buffer, sets the state
to CLOSED, and only then enters the callback once for CLOSE, which finds `fd`
unset and state CLOSED (shown for any callback as the dispatch it reduces to,
and in full for a CLOSE callback that does nothing).  Hence hold followed by
release is the identity on every stream with `ref ≥ 1`. -/
theorem hold_release_contract (env : Env) (fuel : Nat) (w : World) :
    reactor_stream_hold w = { w with ref := w.ref + 1 } ∧
    (w.ref - 1 ≠ 0 →
      reactor_stream_release env (fuel + 1) w = some { w with ref := w.ref - 1 }) ∧
    (w.ref - 1 = 0 →
      reactor_stream_release env (fuel + 1) w =
        reactor_user_dispatch env fuel Event.CLOSE []
          { w with
            ref := 0
            state := State.CLOSED
            fd := -1
            input := []
            output := []
            registered := false
            trace := w.trace ++ [Obs.fd_deregister w.fd, Obs.sys_close w.fd,
              Obs.destruct_input, Obs.destruct_output] }) ∧
    (w.ref - 1 = 0 → env.callback w.ndispatch Event.CLOSE [] = [] →
      reactor_stream_release env (fuel + 2) w =
        some { w with
          ref := 0
          state := State.CLOSED
          fd := -1
          input := []
          output := []
          registered := false
          ndispatch := w.ndispatch + 1
          trace := w.trace ++ [Obs.fd_deregister w.fd, Obs.sys_close w.fd,
            Obs.destruct_input, Obs.destruct_output,
            Obs.enter Event.CLOSE [] State.CLOSED (-1) 0, Obs.leave Event.CLOSE] }) ∧
    (1 ≤ w.ref → reactor_stream_release env (fuel + 1) (reactor_stream_hold w) = some w) := by
  refine ⟨rfl, release_keep env fuel w, release_last env fuel w, ?_, ?_⟩
  · intro h hcb
    exact release_last_idle env fuel w h hcb
  · intro h
    rw [release_keep]
    · simp [reactor_stream_hold]
    · simp only [reactor_stream_hold]
      omega

/-- Witness for `hold_release_contract`: a fresh stream survives a hold and a
release unchanged, and its last release tears it down. -/
theorem hold_release_contract_witness :
    reactor_stream_release env_accept_four 2 (reactor_stream_hold (reactor_stream_open 3))
        = some (reactor_stream_open 3) ∧
    reactor_stream_release env_accept_four 2 (reactor_stream_open 3)
        = some (torn_down (reactor_stream_open 3)) :=
  ⟨(hold_release_contract env_accept_four 1 (reactor_stream_open 3)).2.2.2.2 (by decide),
   (hold_release_contract env_accept_four 0 (reactor_stream_open 3)).2.2.2.1 (by decide) rfl⟩

/-! ## Readiness masks -/

theorem pollout_only_tests :
    POLLOUT &&& (POLLERR ||| POLLNVAL) = 0 ∧ POLLOUT &&& POLLOUT ≠ 0 ∧
      POLLOUT &&& (POLLIN ||| POLLHUP) ≠ POLLHUP ∧ POLLOUT &&& POLLIN = 0 := by
  decide

theorem pollin_excludes_hangup_only (revents : Nat) (h : revents &&& POLLIN ≠ 0) :
    revents &&& (POLLIN ||| POLLHUP) ≠ POLLHUP := by
  intro hh
  apply h
  have h1 : (revents &&& (POLLIN ||| POLLHUP)) &&& POLLIN = POLLHUP &&& POLLIN := by rw [hh]
  rw [Nat.land_assoc] at h1
  have h2 : (POLLIN ||| POLLHUP) &&& POLLIN = POLLIN := by decide
  have h3 : POLLHUP &&& POLLIN = 0 := by decide
  rw [h2, h3] at h1
  exact h1

/-! ## Close twice -/

/-- C7 (as amended): for every stream that is not CLOSED, has `ref = 1` and
either an empty output buffer or state ERROR, with a CLOSE callback that does
nothing: one `reactor_stream_close` tears the stream down (state CLOSED,
`ref = 0`, `fd = -1`, buffers empty, CLOSE dispatched exactly once), and a
second `reactor_stream_close` returns that same world, so nothing more is
dispatched. -/
theorem close_twice_same_as_once (env : Env) (fuel : Nat) (w : World)
    (hf : 3 ≤ fuel) (hs : w.state ≠ State.CLOSED)
    (hout : w.state = State.ERROR ∨ w.output = []) (href : w.ref = 1)
    (hcb : env.callback w.ndispatch Event.CLOSE [] = []) :
    reactor_stream_close env fuel w = some (torn_down w) ∧
    (reactor_stream_close env fuel w).bind (reactor_stream_close env fuel)
      = reactor_stream_close env fuel w ∧
    (torn_down w).state = State.CLOSED ∧ (torn_down w).ref = 0 ∧ (torn_down w).fd = -1 ∧
    (torn_down w).input = [] ∧ (torn_down w).output = [] ∧
    dispatched Event.CLOSE (torn_down w).trace = dispatched Event.CLOSE w.trace + 1 := by
  obtain ⟨f, rfl⟩ : ∃ f, fuel = f + 3 := ⟨fuel - 3, by omega⟩
  have h1 := close_last env f w hs hout href hcb
  refine ⟨h1, ?_, rfl, rfl, rfl, rfl, rfl, ?_⟩
  · rw [h1]
    exact close_closed env (f + 2) (torn_down w) rfl
  · simp [torn_down, dispatched, List.countP_append, List.countP_cons]

/-- Witness for `close_twice_same_as_once`: the freshly opened stream. -/
theorem close_twice_same_as_once_witness :
    reactor_stream_close env_accept_four 3 (reactor_stream_open 3)
        = some (torn_down (reactor_stream_open 3)) ∧
    (reactor_stream_close env_accept_four 3 (reactor_stream_open 3)).bind
        (reactor_stream_close env_accept_four 3)
        = reactor_stream_close env_accept_four 3 (reactor_stream_open 3) :=
  have h := close_twice_same_as_once env_accept_four 3 (reactor_stream_open 3)
    (by decide) (by decide) (Or.inr rfl) rfl rfl
  ⟨h.1, h.2.1⟩

/-- C7 (counterexample to the claim as stated): on an OPEN stream with an
empty output buffer and `ref = 2` (the reference of `reactor_stream_open` plus
one hold), one `reactor_stream_close` leaves state CLOSING, `ref = 1`, the
descriptor attached and no CLOSE dispatched, while two calls in a row leave
state CLOSED, `ref = 0`, `fd = -1` and one CLOSE dispatched. -/
theorem close_twice_differs_with_extra_hold :
    (reactor_stream_close env_accept_four 4
        (reactor_stream_hold (reactor_stream_open 3))).map
      (fun w => (w.state, w.ref, w.fd, dispatched Event.CLOSE w.trace))
      = some (State.CLOSING, 1, 3, 0) ∧
    ((reactor_stream_close env_accept_four 4
        (reactor_stream_hold (reactor_stream_open 3))).bind
      (reactor_stream_close env_accept_four 4)).map
      (fun w => (w.state, w.ref, w.fd, dispatched Event.CLOSE w.trace))
      = some (State.CLOSED, 0, -1, 1) := by
  decide!

/-! ## Trace functions on loop traces -/

theorem events_of_append (s t : List Obs) : events_of (s ++ t) = events_of s ++ events_of t := by
  induction s with
  | nil => rfl
  | cons o s ih => cases o <;> simp [events_of, ih]

theorem events_of_accept_obs (fd : Int) (out : List Byte) (ns : List Nat) :
    ∀ base, events_of (accept_obs fd out base ns) = [] := by
  induction ns with
  | nil => intro base; rfl
  | cons n ns ih => intro base; simp [accept_obs, events_of, ih]

theorem dispatched_append (ev : Event) (s t : List Obs) :
    dispatched ev (s ++ t) = dispatched ev s + dispatched ev t := by
  simp [dispatched, List.countP_append]

theorem dispatched_accept_obs (ev : Event) (fd : Int) (out : List Byte) (ns : List Nat) :
    ∀ base, dispatched ev (accept_obs fd out base ns) = 0 := by
  induction ns with
  | nil => intro base; rfl
  | cons n ns ih =>
    intro base
    have h := ih (base + n)
    simp only [dispatched] at h
    simp [accept_obs, dispatched, List.countP_cons, h]

theorem written_append (s t : List Obs) : written (s ++ t) = written s ++ written t := by
  induction s with
  | nil => rfl
  | cons o s ih =>
    cases o with
    | sys_write fd handed res => cases res <;> simp [written, ih]
    | _ => simp [written, ih]

theorem written_accept_obs (env : Env) (fd : Int) (out : List Byte) (ns : List Nat) :
    ∀ i base, accepts env out i base ns →
      written (accept_obs fd out base ns) = (out.drop base).take ns.sum := by
  induction ns with
  | nil => intro i base _; simp [accept_obs, written]
  | cons n ns ih =>
    intro i base h
    obtain ⟨_, _, _, hrest⟩ := h
    simp only [accept_obs, written, List.sum_cons]
    rw [ih (i + 1) (base + n) hrest, List.take_add, List.drop_drop]

theorem hands_over_accept_obs (fd : Int) (out : List Byte) (ns : List Nat) (rest : List Obs) :
    ∀ base, hands_over (out.drop (base + ns.sum)) rest →
      hands_over (out.drop base) (accept_obs fd out base ns ++ rest) := by
  induction ns with
  | nil => intro base h; simpa [accept_obs] using h
  | cons n ns ih =>
    intro base h
    simp only [accept_obs, List.cons_append, hands_over, List.drop_drop, true_and]
    apply ih
    simpa [Nat.add_assoc] using h

/-! ## The end-to-end scenario -/

/-- C9: after `reactor_stream_open` on descriptor `fd`, `reactor_stream_write`
of "ping" and a readiness notification POLLOUT in which the write call accepts
all 4 bytes (consumer callbacks doing nothing), the output buffer is empty,
POLLOUT is cleared from the interest mask, exactly one event (WRITE) has been
dispatched, the 4 bytes written are "ping", the state is OPEN and `ref = 1`.
A following `reactor_stream_close` dispatches CLOSE once, during that call and
with no callback running, and leaves state CLOSED, `fd = -1`, `ref = 0` and
the descriptor deregistered. -/
theorem ping_then_close (env : Env) (fd : Int) (fuel : Nat) (hf : 3 ≤ fuel)
    (hcb : ∀ i ev view, env.callback i ev view = [])
    (hw : env.sys_write 0 ping = WriteRes.ok 4) :
    ∃ w1 w2,
      reactor_stream_event env fuel POLLOUT
          (reactor_stream_write ping (reactor_stream_open fd)) = some w1 ∧
      w1.output = [] ∧ w1.events &&& POLLOUT = 0 ∧ events_of w1.trace = [Event.WRITE] ∧
      written w1.trace = ping ∧ w1.state = State.OPEN ∧ w1.ref = 1 ∧ w1.fd = fd ∧
      reactor_stream_close env fuel w1 = some w2 ∧
      events_of w2.trace = [Event.WRITE, Event.CLOSE] ∧
      running_at Event.CLOSE [] w2.trace = [[]] ∧
      w2.state = State.CLOSED ∧ w2.fd = -1 ∧ w2.ref = 0 ∧ w2.registered = false := by
  obtain ⟨f, rfl⟩ : ∃ f, fuel = f + 3 := ⟨fuel - 3, by omega⟩
  have hacc : accepts env
      (reactor_stream_hold (reactor_stream_write ping (reactor_stream_open fd))).output
      (reactor_stream_hold (reactor_stream_write ping (reactor_stream_open fd))).nwrite 0 [4] :=
    ⟨by show (0 : Nat) < 4; decide, by show (0 : Nat) + 4 ≤ 4; decide, hw, trivial⟩
  have hflush := flush_drained_open env [4] (f + 3)
    (reactor_stream_hold (reactor_stream_write ping (reactor_stream_open fd)))
    rfl hacc rfl (hcb _ _ _) (by simp)
  obtain ⟨t1, t2, t3, t4⟩ := pollout_only_tests
  have hev : reactor_stream_event env (f + 3) POLLOUT
      (reactor_stream_write ping (reactor_stream_open fd)) = some (after_ping fd) := by
    simp only [reactor_stream_event]
    rw [if_neg (by simpa using t1), if_pos t2, hflush]
    simp only [Option.bind_eq_bind, Option.some_bind, if_neg t3]
    rw [if_neg (by simpa using t4)]
    rw [release_keep _ _ _ (by show (0 : Int) + 1 + 1 - 1 ≠ 0; decide)]
    rfl
  have hmask : (after_ping fd).events &&& POLLOUT = 0 := by
    show ((POLLIN ||| POLLOUT) &&& (0xFFFF - POLLOUT)) &&& POLLOUT = 0
    decide
  refine ⟨after_ping fd, torn_down (after_ping fd), hev, rfl, hmask, rfl, rfl, rfl, rfl, rfl,
    ?_, rfl, rfl, rfl, rfl, rfl, rfl⟩
  exact close_last env f _ (by simp [after_ping]) (Or.inr rfl) rfl (hcb _ _ _)

/-- Witness for `ping_then_close`: descriptor 3, idle consumer, a first write
call that accepts 4 bytes. -/
theorem ping_then_close_witness :
    ∃ w1 w2,
      reactor_stream_event env_accept_four 3 POLLOUT
          (reactor_stream_write ping (reactor_stream_open 3)) = some w1 ∧
      w1.output = [] ∧ w1.events &&& POLLOUT = 0 ∧ events_of w1.trace = [Event.WRITE] ∧
      written w1.trace = ping ∧ w1.state = State.OPEN ∧ w1.ref = 1 ∧ w1.fd = 3 ∧
      reactor_stream_close env_accept_four 3 w1 = some w2 ∧
      events_of w2.trace = [Event.WRITE, Event.CLOSE] ∧
      running_at Event.CLOSE [] w2.trace = [[]] ∧
      w2.state = State.CLOSED ∧ w2.fd = -1 ∧ w2.ref = 0 ∧ w2.registered = false :=
  ping_then_close env_accept_four 3 3 (by decide) (fun _ _ _ => rfl) rfl

/-! ## Close from within the READ callback -/

theorem exists_accepts (env : Env) (out : List Byte) (first : Nat)
    (hok : no_write_failure env first) :
    ∀ k base i, first ≤ i → base + k = out.length →
      ∃ ns, accepts env out i base ns ∧ ns.sum = k ∧ ns.length ≤ k := by
  intro k
  induction k using Nat.strong_induction_on with
  | _ k ih =>
    intro base i hi hlen
    by_cases hk : k = 0
    · exact ⟨[], trivial, by simp [hk], by simp⟩
    · have hne : out.drop base ≠ [] := by
        intro h
        have := congrArg List.length h
        simp at this
        omega
      obtain ⟨n, hn, h1, h2⟩ := hok i (out.drop base) hi hne
      simp only [List.length_drop] at h2
      obtain ⟨ns, hacc, hsum, hlen2⟩ := ih (k - n) (by omega) (base + n) (i + 1) (by omega)
        (by omega)
      refine ⟨n :: ns, ⟨by omega, by omega, hn, hacc⟩, ?_, ?_⟩
      · simp only [List.sum_cons, hsum]; omega
      · simp only [List.length_cons]; omega

theorem writes_fold (ds : List (List Byte)) :
    ∀ w : World, ∃ ev,
      ds.foldl (fun acc d => reactor_stream_write d acc) w =
        { w with output := w.output ++ ds.flatten, events := ev } := by
  induction ds with
  | nil => intro w; exact ⟨w.events, by simp⟩
  | cons d ds ih =>
    intro w
    obtain ⟨ev, h⟩ := ih (reactor_stream_write d w)
    refine ⟨ev, ?_⟩
    rw [List.foldl_cons, h]
    simp [reactor_stream_write, buffer_insert, buffer_size]

theorem flush_drains (env : Env) (fuel : Nat) (w : World)
    (hs : w.state = State.OPEN) (hok : no_write_failure env w.nwrite)
    (hcb : env.callback w.ndispatch Event.WRITE [] = [])
    (hf : w.output.length + 2 ≤ fuel) :
    ∃ w1 t, reactor_stream_flush env fuel w = some w1 ∧ w1.trace = w.trace ++ t ∧
      written t = w.output ∧ events_of t = [Event.WRITE] ∧ w1.output = [] ∧
      hands_over w.output t := by
  obtain ⟨ns, hacc, hsum, hlen⟩ :=
    exists_accepts env w.output w.nwrite hok w.output.length 0 w.nwrite (Nat.le_refl _)
      (by simp)
  refine ⟨_, accept_obs w.fd w.output 0 ns ++
      [Obs.enter Event.WRITE [] State.OPEN w.fd w.ref, Obs.leave Event.WRITE],
    flush_drained_open env ns fuel w hs hacc hsum hcb (by omega), ?_, ?_, ?_,
    rfl, ?_⟩
  · simp only [List.append_assoc]
  · rw [written_append, written_accept_obs env w.fd w.output ns w.nwrite 0 hacc, hsum]
    simp [written]
  · rw [events_of_append, events_of_accept_obs]
    simp [events_of]
  · have h := hands_over_accept_obs w.fd w.output ns
      [Obs.enter Event.WRITE [] State.OPEN w.fd w.ref, Obs.leave Event.WRITE] 0
      (by simp [hands_over])
    simpa using h

/-- C3: for every OPEN stream with an empty output buffer and every sequence
of `reactor_stream_write` calls with data `ds`, followed by one
`reactor_stream_flush` in which no write call fails (each accepts between 1
and all of the bytes it is handed) and the WRITE callback does nothing: the
flush returns; each of its write calls is handed exactly the bytes of
`d1 ++ ... ++ dm` that the calls before it have not accepted; the bytes the
calls accept, in order, are `d1 ++ ... ++ dm`; and the output buffer is empty
afterwards. -/
theorem fifo_fidelity (env : Env) (fuel : Nat) (w : World) (ds : List (List Byte))
    (hs : w.state = State.OPEN) (hout : w.output = [])
    (hok : no_write_failure env w.nwrite)
    (hcb : env.callback w.ndispatch Event.WRITE [] = [])
    (hf : ds.flatten.length + 2 ≤ fuel) :
    ∃ w1 t,
      reactor_stream_flush env fuel
          (ds.foldl (fun acc d => reactor_stream_write d acc) w) = some w1 ∧
      w1.trace = w.trace ++ t ∧ hands_over ds.flatten t ∧ written t = ds.flatten ∧
      w1.output = [] := by
  obtain ⟨ev, hfold⟩ := writes_fold ds w
  rw [hfold, hout, List.nil_append]
  obtain ⟨w1, t, h1, h2, h3, _, h5, h6⟩ :=
    flush_drains env fuel { w with output := ds.flatten, events := ev } hs hok hcb hf
  exact ⟨w1, t, h1, h2, h6, h3, h5⟩

/-- Witness for `fifo_fidelity`: "pi" and "ng" written to a fresh stream and
flushed one byte per write call. -/
theorem fifo_fidelity_witness :
    ∃ w1 t,
      reactor_stream_flush env_one_byte 6
          ([[112, 105], [110, 103]].foldl (fun acc d => reactor_stream_write d acc)
            (reactor_stream_open 3)) = some w1 ∧
      w1.trace = (reactor_stream_open 3).trace ++ t ∧
      hands_over [[112, 105], [110, 103]].flatten t ∧
      written t = [[112, 105], [110, 103]].flatten ∧ w1.output = [] :=
  fifo_fidelity env_one_byte 6 (reactor_stream_open 3) [[112, 105], [110, 103]] rfl rfl
    (fun _ d _ hd => ⟨1, rfl, Nat.le_refl 1, List.length_pos.mpr hd⟩) rfl (by decide)

/-! ## Would-block -/

theorem lor_land_self (a b : Nat) : (a ||| b) &&& b = b := by
  apply Nat.eq_of_testBit_eq
  intro i
  simp only [Nat.testBit_land, Nat.testBit_lor]
  cases a.testBit i <;> cases b.testBit i <;> rfl

/-- C4: for every OPEN stream whose output buffer holds `b`, if
`reactor_stream_flush` has its write calls accept `ns` bytes in turn, `k` in
total with `k < |b|`, and the next call reports would-block (EAGAIN), with a
BLOCKED callback that does nothing, then exactly one event is dispatched and
it is BLOCKED, the state stays OPEN, POLLOUT is set in the interest mask, the
descriptor and `ref` are untouched, the bytes taken are the first `k` bytes of
`b` and the output buffer is `b` without them.  In a following flush in which
no write call fails, each write call is handed exactly the remaining bytes
not accepted before it, the bytes accepted are these remaining bytes in their
original order, and the buffer ends empty. -/
theorem would_block_keeps_bytes (env : Env) (ns : List Nat) (fuel : Nat) (w : World)
    (hs : w.state = State.OPEN)
    (hacc : accepts env w.output w.nwrite 0 ns) (hk : ns.sum < w.output.length)
    (hblock : env.sys_write (w.nwrite + ns.length) (w.output.drop ns.sum)
      = WriteRes.fail EAGAIN)
    (hcb : env.callback w.ndispatch Event.BLOCKED [] = [])
    (hf : ns.length + 2 ≤ fuel) :
    ∃ w1 t1, reactor_stream_flush env fuel w = some w1 ∧ w1.trace = w.trace ++ t1 ∧
      events_of t1 = [Event.BLOCKED] ∧ written t1 = w.output.take ns.sum ∧
      w1.state = State.OPEN ∧ w1.events &&& POLLOUT = POLLOUT ∧
      w1.fd = w.fd ∧ w1.registered = w.registered ∧ w1.ref = w.ref ∧
      w1.output = w.output.drop ns.sum ∧
      (no_write_failure env w1.nwrite → env.callback w1.ndispatch Event.WRITE [] = [] →
        ∀ fuel2, w1.output.length + 2 ≤ fuel2 →
          ∃ w2 t2, reactor_stream_flush env fuel2 w1 = some w2 ∧
            w2.trace = w1.trace ++ t2 ∧ hands_over (w.output.drop ns.sum) t2 ∧
            written t2 = w.output.drop ns.sum ∧ w2.output = []) := by
  refine ⟨_, accept_obs w.fd w.output 0 ns ++
      [Obs.sys_write w.fd (w.output.drop ns.sum) (WriteRes.fail EAGAIN),
       Obs.enter Event.BLOCKED [] w.state w.fd w.ref, Obs.leave Event.BLOCKED],
    flush_blocked env ns fuel w hacc hk hblock hcb hf, ?_, ?_, ?_, hs, ?_, rfl, rfl, rfl, rfl, ?_⟩
  · simp only [List.append_assoc]
  · rw [events_of_append, events_of_accept_obs]
    simp [events_of]
  · rw [written_append, written_accept_obs env w.fd w.output ns w.nwrite 0 hacc]
    simp [written]
  · exact lor_land_self _ _
  · intro hok hcb2 fuel2 hf2
    have hd := flush_drains env fuel2 _ ?_ hok hcb2 hf2
    · obtain ⟨w2, t2, h1, h2, h3, _, h5, h6⟩ := hd
      exact ⟨w2, t2, h1, h2, h6, h3, h5⟩
    · exact hs

/-- Witness for `would_block_keeps_bytes`: "ping" queued, the first write call
accepts 2 bytes, the second would block. -/
theorem would_block_keeps_bytes_witness :
    ∃ w1 t1, reactor_stream_flush env_block_once 3
        (reactor_stream_write ping (reactor_stream_open 3)) = some w1 ∧
      w1.trace = (reactor_stream_write ping (reactor_stream_open 3)).trace ++ t1 ∧
      events_of t1 = [Event.BLOCKED] ∧ written t1 = [112, 105] ∧
      w1.state = State.OPEN ∧ w1.events &&& POLLOUT = POLLOUT ∧
      w1.output = [110, 103] :=
  have h := would_block_keeps_bytes env_block_once [2] 3
    (reactor_stream_write ping (reactor_stream_open 3)) rfl
    ⟨by decide, by decide, rfl, trivial⟩ (by decide) rfl rfl (by decide)
  match h with
  | ⟨w1, t1, h1, h2, h3, h4, h5, h6, _, _, _, h10, _⟩ => ⟨w1, t1, h1, h2, h3, h4, h5, h6, h10⟩

/-! ## Hard I/O failure -/

theorem mem_accept_obs (fd : Int) (out : List Byte) (ns : List Nat) (o : Obs) :
    ∀ base, o ∈ accept_obs fd out base ns → ∃ h n, o = Obs.sys_write fd h (WriteRes.ok n) := by
  induction ns with
  | nil => intro base h; simp [accept_obs] at h
  | cons n ns ih =>
    intro base h
    simp only [accept_obs, List.mem_cons] at h
    rcases h with h | h
    · exact ⟨_, _, h⟩
    · exact ih _ h

theorem hard_failure_outcome_intro (env : Env) (fuel : Nat) (w w1 : World) (t : List Obs)
    (hf : 3 ≤ fuel)
    (hcb : env.callback w1.ndispatch Event.CLOSE [] = [])
    (h1 : w1.state = State.ERROR) (h2 : w1.events = 0) (h3 : w1.trace = w.trace ++ t)
    (h4 : dispatched Event.ERROR t = 1) (h5 : dispatched Event.CLOSE t = 0)
    (h6 : Obs.fd_deregister w.fd ∉ t) (h7 : Obs.sys_close w.fd ∉ t)
    (h8 : w1.fd = w.fd) (h9 : w1.registered = w.registered) (h10 : w1.ref = w.ref) :
    hard_failure_outcome env fuel w w1 := by
  obtain ⟨f, rfl⟩ : ∃ f, fuel = f + 3 := ⟨fuel - 3, by omega⟩
  refine ⟨h1, by rw [h2]; exact Nat.zero_and _, ⟨t, h3, h4, h5, h6, h7⟩, h8, h9, h10, ?_⟩
  intro href
  refine ⟨close_last env f w1 (by rw [h1]; decide) (Or.inl h1) (by rw [h10, href]) hcb,
    rfl, rfl, ?_⟩
  simp [torn_down, dispatched, List.countP_append, List.countP_cons]

theorem flush_hard_failure (env : Env) (ns : List Nat) (e fuel : Nat) (w : World)
    (hs : w.state = State.OPEN) (href : 1 ≤ w.ref)
    (hidle : ∀ i ev view, env.callback i ev view = [])
    (hacc : accepts env w.output w.nwrite 0 ns) (hsum : ns.sum < w.output.length)
    (hfail : env.sys_write (w.nwrite + ns.length) (w.output.drop ns.sum) = WriteRes.fail e)
    (he : e ≠ EAGAIN) (hf : ns.length + 2 ≤ fuel) (hf3 : 3 ≤ fuel) :
    ∃ w1, reactor_stream_flush env fuel w = some w1 ∧ hard_failure_outcome env fuel w w1 := by
  refine ⟨_, flush_failed env ns e fuel w (by rw [hs]; decide) (by omega) hacc hsum hfail he
    (hidle _ _ _) hf hf3, ?_⟩
  refine hard_failure_outcome_intro env fuel w _
    (accept_obs w.fd w.output 0 ns ++
      [Obs.sys_write w.fd (w.output.drop ns.sum) (WriteRes.fail e),
       Obs.enter Event.ERROR [] State.ERROR w.fd (w.ref + 1), Obs.leave Event.ERROR])
    hf3 (hidle _ _ _) rfl rfl (by simp only [List.append_assoc]) ?_ ?_ ?_ ?_ rfl rfl rfl
  · rw [dispatched_append, dispatched_accept_obs]
    simp [dispatched, List.countP_cons]
  · rw [dispatched_append, dispatched_accept_obs]
    simp [dispatched, List.countP_cons]
  · intro hm
    rcases List.mem_append.mp hm with hm | hm
    · obtain ⟨h, n, hh⟩ := mem_accept_obs _ _ _ _ _ hm
      cases hh
    · simp at hm
  · intro hm
    rcases List.mem_append.mp hm with hm | hm
    · obtain ⟨h, n, hh⟩ := mem_accept_obs _ _ _ _ _ hm
      cases hh
    · simp at hm

theorem event_read_hard_failure (env : Env) (e fuel revents : Nat) (w a : World)
    (t : List Obs) (href : 1 ≤ w.ref)
    (hidle : ∀ i ev view, env.callback i ev view = [])
    (herr : revents &&& (POLLERR ||| POLLNVAL) = 0) (hin : revents &&& POLLIN ≠ 0)
    (hphase : (if revents &&& POLLOUT ≠ 0 then reactor_stream_flush env fuel (reactor_stream_hold w)
      else some (reactor_stream_hold w)) = some a)
    (ha2 : a.ref = w.ref + 1) (ha3 : a.fd = w.fd)
    (ha4 : a.registered = w.registered) (ha5 : a.trace = w.trace ++ t)
    (ha6 : dispatched Event.ERROR t = 0) (ha7 : dispatched Event.CLOSE t = 0)
    (ha8 : Obs.fd_deregister w.fd ∉ t) (ha9 : Obs.sys_close w.fd ∉ t)
    (hread : env.sys_read a.nread = ReadRes.fail e) (he : e ≠ EAGAIN) (hf : 3 ≤ fuel) :
    ∃ w1, reactor_stream_event env fuel revents w = some w1 ∧
      hard_failure_outcome env fuel w w1 := by
  obtain ⟨f, rfl⟩ : ∃ f, fuel = f + 3 := ⟨fuel - 3, by omega⟩
  have hhup := pollin_excludes_hangup_only revents hin
  have hrel : a.ref - 1 ≠ 0 := by omega
  have hev : reactor_stream_event env (f + 3) revents w =
      some { a with
        nread := a.nread + 1
        errno := e
        events := 0
        state := State.ERROR
        ref := a.ref - 1
        ndispatch := a.ndispatch + 1
        trace := a.trace ++ [Obs.sys_read a.fd (ReadRes.fail e),
          Obs.enter Event.ERROR [] State.ERROR a.fd a.ref, Obs.leave Event.ERROR] } := by
    simp only [reactor_stream_event]
    rw [if_neg (by simpa using herr)]
    by_cases hp : revents &&& POLLOUT ≠ 0
    · rw [if_pos hp] at hphase
      rw [if_pos hp, hphase]
      simp [hhup, hin, hread, he, error_succ, dispatch_idle, hidle, release_keep, hrel]
    · rw [if_neg hp] at hphase
      rw [if_neg hp, Option.some.inj hphase]
      simp [hhup, hin, hread, he, error_succ, dispatch_idle, hidle, release_keep, hrel]
  refine ⟨_, hev, ?_⟩
  refine hard_failure_outcome_intro env (f + 3) w _
    (t ++ [Obs.sys_read a.fd (ReadRes.fail e),
      Obs.enter Event.ERROR [] State.ERROR a.fd a.ref, Obs.leave Event.ERROR])
    hf (hidle _ _ _) rfl rfl (by simp [ha5]) ?_ ?_ ?_ ?_ ha3 ha4 (by simp only []; omega)
  · rw [dispatched_append, ha6]
    simp [dispatched, List.countP_cons]
  · rw [dispatched_append, ha7]
    simp [dispatched, List.countP_cons]
  · intro hm
    rcases List.mem_append.mp hm with hm | hm
    · exact ha8 hm
    · simp at hm
  · intro hm
    rcases List.mem_append.mp hm with hm | hm
    · exact ha9 hm
    · simp at hm

/-- C10: hard I/O failure on an OPEN stream with `ref ≥ 1` whose callbacks do
nothing.  (1) When a write call of `reactor_stream_flush` fails with an errno
other than EAGAIN (after earlier calls accepted `ns` bytes), and (2), (3) when
the read call of `reactor_stream_event` does so (POLLIN set, POLLERR and
POLLNVAL clear; in (2) POLLOUT is clear, in (3) the write phase of the same
notification, if any, has left `ref`, the descriptor and its registration
alone and dispatched neither ERROR nor CLOSE), the operation returns with
state ERROR, POLLOUT cleared from the interest mask, exactly one ERROR and no
CLOSE dispatched, the descriptor neither deregistered nor closed, and `ref`
unchanged; and if `ref` is 1, a following `reactor_stream_close` tears the
stream down (state CLOSED, `fd = -1`) and dispatches CLOSE exactly once. -/
theorem hard_failure_sets_error (env : Env) (e fuel : Nat) (w : World)
    (hs : w.state = State.OPEN) (href : 1 ≤ w.ref)
    (hidle : ∀ i ev view, env.callback i ev view = [])
    (he : e ≠ EAGAIN) (hf : 3 ≤ fuel) :
    (∀ ns, accepts env w.output w.nwrite 0 ns → ns.sum < w.output.length →
      env.sys_write (w.nwrite + ns.length) (w.output.drop ns.sum) = WriteRes.fail e →
      ns.length + 2 ≤ fuel →
      ∃ w1, reactor_stream_flush env fuel w = some w1 ∧ hard_failure_outcome env fuel w w1) ∧
    (∀ revents, revents &&& (POLLERR ||| POLLNVAL) = 0 → revents &&& POLLIN ≠ 0 →
      revents &&& POLLOUT = 0 → env.sys_read w.nread = ReadRes.fail e →
      ∃ w1, reactor_stream_event env fuel revents w = some w1 ∧
        hard_failure_outcome env fuel w w1) ∧
    (∀ revents a t, revents &&& (POLLERR ||| POLLNVAL) = 0 → revents &&& POLLIN ≠ 0 →
      (if revents &&& POLLOUT ≠ 0 then reactor_stream_flush env fuel (reactor_stream_hold w)
        else some (reactor_stream_hold w)) = some a →
      a.ref = w.ref + 1 → a.fd = w.fd → a.registered = w.registered →
      a.trace = w.trace ++ t → dispatched Event.ERROR t = 0 → dispatched Event.CLOSE t = 0 →
      Obs.fd_deregister w.fd ∉ t → Obs.sys_close w.fd ∉ t →
      env.sys_read a.nread = ReadRes.fail e →
      ∃ w1, reactor_stream_event env fuel revents w = some w1 ∧
        hard_failure_outcome env fuel w w1) := by
  refine ⟨?_, ?_, ?_⟩
  · intro ns hacc hsum hfail hfl
    exact flush_hard_failure env ns e fuel w hs href hidle hacc hsum hfail he hfl hf
  · intro revents herr hin hout hread
    exact event_read_hard_failure env e fuel revents w (reactor_stream_hold w) [] href hidle
      herr hin (by rw [if_neg (by simpa using hout)]) rfl rfl rfl
      (by simp [reactor_stream_hold]) rfl rfl
      (by simp) (by simp) hread he hf
  · intro revents a t herr hin hphase h2 h3 h4 h5 h6 h7 h8 h9 hread
    exact event_read_hard_failure env e fuel revents w a t href hidle herr hin hphase
      h2 h3 h4 h5 h6 h7 h8 h9 hread he hf

/-- Witness for `hard_failure_sets_error`: a write that fails with EPIPE after
one accepted byte, and a read that fails with EBADF. -/
theorem hard_failure_sets_error_witness :
    (∃ w1, reactor_stream_flush env_broken 3
        (reactor_stream_write [120, 121] (reactor_stream_open 3)) = some w1 ∧
      hard_failure_outcome env_broken 3
        (reactor_stream_write [120, 121] (reactor_stream_open 3)) w1) ∧
    (∃ w1, reactor_stream_event env_broken 3 POLLIN (reactor_stream_open 3) = some w1 ∧
      hard_failure_outcome env_broken 3 (reactor_stream_open 3) w1) :=
  ⟨(hard_failure_sets_error env_broken EPIPE 3
      (reactor_stream_write [120, 121] (reactor_stream_open 3)) rfl (by decide)
      (fun _ _ _ => rfl) (by decide) (by decide)).1 [1]
      ⟨by decide, by decide, rfl, trivial⟩ (by decide) rfl (by decide),
   (hard_failure_sets_error env_broken EBADF 3 (reactor_stream_open 3) rfl (by decide)
      (fun _ _ _ => rfl) (by decide) (by decide)).2.1 POLLIN (by decide) (by decide)
      (by decide) rfl⟩

/-! ## Errors while closing, and after teardown -/

/-- C11 (the code departs from the claim): open, write "x", close while the
write would block, which leaves the stream CLOSING with `ref = 1`.  A
readiness notification POLLIN whose read fails with ECONNRESET then returns
with the stream in state ERROR, `ref = 1`, the descriptor still attached and
no CLOSE dispatched.  On the same stream a notification POLLOUT whose write
fails with EPIPE does reach CLOSED, with CLOSE dispatched once after ERROR. -/
theorem read_error_while_closing_stays_error :
    ((reactor_stream_close env_closing_failure 5
        (reactor_stream_write [120] (reactor_stream_open 3))).bind
      (reactor_stream_event env_closing_failure 5 POLLIN)).map
      (fun w => (w.state, w.ref, w.fd, events_of w.trace))
      = some (State.ERROR, 1, 3, [Event.BLOCKED, Event.ERROR]) ∧
    ((reactor_stream_close env_closing_failure 5
        (reactor_stream_write [120] (reactor_stream_open 3))).bind
      (reactor_stream_event env_closing_failure 5 POLLOUT)).map
      (fun w => (w.state, w.ref, w.fd, events_of w.trace))
      = some (State.CLOSED, 0, -1, [Event.BLOCKED, Event.ERROR, Event.CLOSE]) := by
  decide!

/-- C12 (the code departs from the claim): open, write "x", then a readiness
notification POLLOUT|POLLIN whose first write would block, whose BLOCKED
callback calls close and whose second write accepts the byte.  The stream is
torn down inside the notification (CLOSE is dispatched with `fd = -1`, state
CLOSED); the handler then reads from the unset descriptor, the read fails, and
the error transition sets state ERROR: the ERROR callback finds `fd = -1` with
state ERROR, and that is also how the notification returns. -/
theorem error_state_with_unset_descriptor :
    (reactor_stream_event env_close_on_blocked_badf 6 (POLLOUT ||| POLLIN)
        (reactor_stream_write [120] (reactor_stream_open 3))).map
      (fun w => (w.state, w.fd, events_of w.trace, w.trace.drop 12))
      = some (State.ERROR, -1, [Event.BLOCKED, Event.CLOSE, Event.ERROR],
          [Obs.sys_read (-1) (ReadRes.fail EBADF),
           Obs.enter Event.ERROR [] State.ERROR (-1) 0, Obs.leave Event.ERROR]) := by
  decide!

/-- C13 (counterexample to the claim as stated): OPEN stream with "xy" queued
whose flush has one byte accepted and then fails with EPIPE: the flush returns
with state ERROR and the output buffer still holding "y". -/
theorem output_kept_in_error_state :
    (reactor_stream_flush env_broken 4
        (reactor_stream_write [120, 121] (reactor_stream_open 3))).map
      (fun w => (w.state, w.output))
      = some (State.ERROR, [121]) := by
  decide!

/-- C15 (counterexample to the claim as stated): OPEN stream with "xy" queued
and a readiness notification POLLOUT|POLLIN.  The write phase fails with
EPIPE and sets state ERROR; the handler still issues the read.  The stream is
left in state ERROR with "y" queued, and a `reactor_stream_flush` on it
issues another write. -/
theorem io_attempted_in_error_state :
    (reactor_stream_event env_broken 5 (POLLOUT ||| POLLIN)
        (reactor_stream_write [120, 121] (reactor_stream_open 3))).map
      (fun w => (w.state, w.output, w.trace.drop 3))
      = some (State.ERROR, [121],
          [Obs.sys_write 3 [121] (WriteRes.fail EPIPE),
           Obs.enter Event.ERROR [] State.ERROR 3 3, Obs.leave Event.ERROR,
           Obs.sys_read 3 (ReadRes.fail EBADF),
           Obs.enter Event.ERROR [] State.ERROR 3 2, Obs.leave Event.ERROR]) ∧
    ((reactor_stream_event env_broken 5 (POLLOUT ||| POLLIN)
        (reactor_stream_write [120, 121] (reactor_stream_open 3))).bind
      (reactor_stream_flush env_broken 5)).map
      (fun w => (w.state, w.trace.drop 9))
      = some (State.ERROR,
          [Obs.sys_write 3 [121] (WriteRes.fail EPIPE),
           Obs.enter Event.ERROR [] State.ERROR 3 2, Obs.leave Event.ERROR]) := by
  decide!

/-! ## Single-step facts: hangup, write, close on a closed stream -/

/-- C14: for every OPEN stream (with `ref ≥ 1`, as every OPEN stream has), a
readiness notification with POLLIN set (POLLERR, POLLNVAL and POLLOUT clear)
whose read returns 0 bytes, with a HANGUP callback that does nothing: the
handler issues the one read, dispatches exactly one event, HANGUP, and returns
with state, `fd`, `ref`, both buffers and the interest mask unchanged. -/
theorem zero_length_read_is_hangup (env : Env) (fuel revents : Nat) (w : World)
    (hf : 1 ≤ fuel) (hs : w.state = State.OPEN) (href : 1 ≤ w.ref)
    (herr : revents &&& (POLLERR ||| POLLNVAL) = 0) (hwr : revents &&& POLLOUT = 0)
    (hin : revents &&& POLLIN ≠ 0)
    (hread : env.sys_read w.nread = ReadRes.ok [])
    (hcb : env.callback w.ndispatch Event.HANGUP [] = []) :
    reactor_stream_event env fuel revents w =
      some { w with
        nread := w.nread + 1
        ndispatch := w.ndispatch + 1
        trace := w.trace ++ [Obs.sys_read w.fd (ReadRes.ok []),
          Obs.enter Event.HANGUP [] State.OPEN w.fd (w.ref + 1), Obs.leave Event.HANGUP] } ∧
    events_of [Obs.sys_read w.fd (ReadRes.ok []),
      Obs.enter Event.HANGUP [] State.OPEN w.fd (w.ref + 1), Obs.leave Event.HANGUP]
      = [Event.HANGUP] := by
  obtain ⟨f, rfl⟩ : ∃ f, fuel = f + 1 := ⟨fuel - 1, by omega⟩
  have hhup := pollin_excludes_hangup_only revents hin
  have hrel : w.ref ≠ 0 := by omega
  refine ⟨?_, rfl⟩
  simp only [reactor_stream_event, reactor_stream_hold]
  rw [if_neg (by simpa using herr), if_neg (by simpa using hwr)]
  simp [hhup, hin, hread, dispatch_idle, hcb, release_keep, hrel, hs]

/-- Witness for `zero_length_read_is_hangup`: a fresh stream whose read
returns 0 bytes. -/
theorem zero_length_read_is_hangup_witness :
    reactor_stream_event env_eof 1 POLLIN (reactor_stream_open 3) =
      some { reactor_stream_open 3 with
        nread := 1
        ndispatch := 1
        trace := (reactor_stream_open 3).trace ++ [Obs.sys_read 3 (ReadRes.ok []),
          Obs.enter Event.HANGUP [] State.OPEN 3 2, Obs.leave Event.HANGUP] } :=
  (zero_length_read_is_hangup env_eof 1 POLLIN (reactor_stream_open 3) (by decide) rfl
    (by decide) (by decide) (by decide) (by decide) rfl rfl).1

theorem pollout_testBit (i : Nat) : POLLOUT.testBit i = decide (i = 2) := by
  have h : POLLOUT = 2 ^ 2 := by decide
  rw [h, Nat.testBit_two_pow]
  by_cases hi : i = 2
  · simp [hi]
  · have : ¬ 2 = i := fun h => hi h.symm
    simp [hi, this]

/-- C16: `reactor_stream_write` only queues.  For every stream (in particular
every OPEN or CLOSING one) and all data `d`: the output buffer becomes the old
output followed by `d`; the interest mask gets the POLLOUT bit and keeps every
other bit; state, `ref`, `fd`, the input buffer and the trace are unchanged,
so no system call is made and no event dispatched.  Enabling the interest is
idempotent: a second write leaves the mask as the first left it, and
`reactor_stream_write_notify`, which only sets the same bit, is idempotent as
a whole. -/
theorem write_only_queues (d d2 : List Byte) (w : World) :
    reactor_stream_write d w =
      { w with output := w.output ++ d, events := w.events ||| POLLOUT } ∧
    (∀ i, (reactor_stream_write d w).events.testBit i =
      (w.events.testBit i || decide (i = 2))) ∧
    (reactor_stream_write d w).state = w.state ∧
    (reactor_stream_write d w).ref = w.ref ∧
    (reactor_stream_write d w).fd = w.fd ∧
    (reactor_stream_write d w).input = w.input ∧
    (reactor_stream_write d w).trace = w.trace ∧
    (reactor_stream_write d w).nwrite = w.nwrite ∧
    (reactor_stream_write d w).ndispatch = w.ndispatch ∧
    (reactor_stream_write d2 (reactor_stream_write d w)).events
      = (reactor_stream_write d w).events ∧
    reactor_stream_write_notify w = { w with events := w.events ||| POLLOUT } ∧
    reactor_stream_write_notify (reactor_stream_write_notify w)
      = reactor_stream_write_notify w := by
  refine ⟨?_, ?_, rfl, rfl, rfl, rfl, rfl, rfl, rfl, ?_, rfl, ?_⟩
  · simp [reactor_stream_write, buffer_insert, buffer_size]
  · intro i
    simp only [reactor_stream_write, Nat.testBit_lor, pollout_testBit]
  · simp only [reactor_stream_write, Nat.lor_assoc, Nat.or_self]
  · simp only [reactor_stream_write_notify, Nat.lor_assoc, Nat.or_self]

/-- C17: for every stream whose state is CLOSED, whatever its `ref`,
`reactor_stream_close` returns the world it was given: every field unchanged,
and the trace unchanged, hence no system call, no multiplexer call and no
event. -/
theorem close_on_closed_is_noop (env : Env) (fuel : Nat) (w : World)
    (hf : 1 ≤ fuel) (hs : w.state = State.CLOSED) :
    reactor_stream_close env fuel w = some w := by
  obtain ⟨f, rfl⟩ : ∃ f, fuel = f + 1 := ⟨fuel - 1, by omega⟩
  exact close_closed env f w hs

/-- Witness for `close_on_closed_is_noop`: the torn-down stream, and the same
with a stray reference count. -/
theorem close_on_closed_is_noop_witness :
    reactor_stream_close env_accept_four 1 (torn_down (reactor_stream_open 3))
        = some (torn_down (reactor_stream_open 3)) ∧
    reactor_stream_close env_accept_four 1
        { torn_down (reactor_stream_open 3) with ref := 7 }
        = some { torn_down (reactor_stream_open 3) with ref := 7 } :=
  ⟨close_on_closed_is_noop env_accept_four 1 (torn_down (reactor_stream_open 3))
      (by decide) rfl,
   close_on_closed_is_noop env_accept_four 1
      { torn_down (reactor_stream_open 3) with ref := 7 } (by decide) rfl⟩

/-! ## The buffered read path -/

theorem exists_loop_run (env : Env) (out : List Byte) (hres : write_contract env) :
    ∀ k base i, base + k = out.length →
      ∃ ns, accepts env out i base ns ∧ ns.length ≤ ns.sum ∧ base + ns.sum ≤ out.length ∧
        (base + ns.sum = out.length ∨
          ∃ e, env.sys_write (i + ns.length) (out.drop (base + ns.sum)) = WriteRes.fail e) := by
  intro k
  induction k using Nat.strong_induction_on with
  | _ k ih =>
    intro base i hlen
    by_cases hk : k = 0
    · exact ⟨[], trivial, by simp, by simp; omega, Or.inl (by simp; omega)⟩
    · have hne : out.drop base ≠ [] := by
        intro h
        have := congrArg List.length h
        simp at this
        omega
      rcases hres i (out.drop base) hne with ⟨e, he⟩ | ⟨n, hn, h1, h2⟩
      · exact ⟨[], trivial, by simp, by simp; omega, Or.inr ⟨e, by simpa using he⟩⟩
      · simp only [List.length_drop] at h2
        obtain ⟨ns, hacc, hl, hs, hfin⟩ := ih (k - n) (by omega) (base + n) (i + 1) (by omega)
        refine ⟨n :: ns, ⟨by omega, by omega, hn, hacc⟩, ?_, ?_, ?_⟩
        · simp only [List.length_cons, List.sum_cons]; omega
        · simp only [List.sum_cons]; omega
        · simp only [List.sum_cons, List.length_cons]
          rcases hfin with h | ⟨e, he⟩
          · exact Or.inl (by omega)
          · refine Or.inr ⟨e, ?_⟩
            have e1 : i + (ns.length + 1) = i + 1 + ns.length := by omega
            have e2 : base + (n + ns.sum) = base + n + ns.sum := by omega
            rw [e1, e2]
            exact he

theorem flush_loop_stalls (env : Env) (hzero : ∀ i d, env.sys_write i d = WriteRes.ok 0) :
    ∀ fuel base (size : Int) (w : World), size ≠ 0 →
      flush_loop env fuel base size w = none := by
  intro fuel
  induction fuel with
  | zero => intro base size w _; rfl
  | succ n ih =>
    intro base size w hs
    rw [flush_loop_succ, if_neg hs, hzero]
    exact ih _ _ _ (by simpa using hs)

theorem accepts_positive (env : Env) (out : List Byte) (hres : write_contract env) :
    ∀ (ns : List Nat) (i base : Nat), accepts env out i base ns → ∀ n ∈ ns, 1 ≤ n := by
  intro ns
  induction ns with
  | nil => intro _ _ _ n hn; cases hn
  | cons m ns ih =>
    intro i base hacc n hn
    obtain ⟨hlt, _, hm, hrest⟩ := hacc
    rcases List.mem_cons.mp hn with rfl | hn
    · have hne : out.drop base ≠ [] := by
        intro h
        have := congrArg List.length h
        simp at this
        omega
      rcases hres i (out.drop base) hne with ⟨e, he⟩ | ⟨k, hk, h1, _⟩
      · rw [hm] at he; cases he
      · rw [hm] at hk; cases hk; exact h1
    · exact ih _ _ hrest n hn

/-- C20: the write loop of `reactor_stream_flush`.  When every write call
either fails or accepts between 1 and all of the bytes it is handed, the loop
returns for every budget above `|output|`, and its result is pinned by the
counts `ns` its write calls accept in turn (each call handed the pending rest
of the output, each count at least 1 and at most what is pending): either the
loop ends with pending count 0 after exactly the calls recorded for `ns`, or
it ends on a failing call, recorded after them, with a positive pending count
and `errno` set; nothing else of the stream changes.  It makes at most
`|output|` system calls, the pending count `size` it returns is `|output|`
minus the sum of `ns` and not negative, and the count then erased from the
front of the buffer, `buffer_size - size`, equals the sum of the accepted
counts.  When instead every write call reports 0 bytes written and the output
buffer is not empty, each iteration leaves offset and pending count as they
were, and neither the loop nor `reactor_stream_flush` returns for any
budget. -/
theorem flush_loop_totality (env : Env) (w : World) :
    (write_contract env → ∀ fuel, w.output.length + 1 ≤ fuel →
      ∃ ns size w1,
        flush_loop env fuel 0 (buffer_size w.output) w = some (size, w1) ∧
        accepts env w.output w.nwrite 0 ns ∧ (∀ n ∈ ns, 1 ≤ n) ∧
        ((size = 0 ∧ w1 = { w with
            nwrite := w.nwrite + ns.length
            trace := w.trace ++ accept_obs w.fd w.output 0 ns }) ∨
          (0 < size ∧ ∃ e, w1 = { w with
            nwrite := w.nwrite + ns.length + 1
            errno := e
            trace := w.trace ++ accept_obs w.fd w.output 0 ns ++
              [Obs.sys_write w.fd (w.output.drop ns.sum) (WriteRes.fail e)] })) ∧
        w1.nwrite - w.nwrite ≤ w.output.length ∧
        size = (w.output.length : Int) - (ns.sum : Nat) ∧ 0 ≤ size ∧
        ((buffer_size w1.output : Int) - size).toNat = ns.sum) ∧
    ((∀ i d, env.sys_write i d = WriteRes.ok 0) → w.output ≠ [] →
      (∀ fuel j, flush_loop env (fuel + j) 0 (buffer_size w.output) w =
        flush_loop env fuel 0 (buffer_size w.output) { w with
          nwrite := w.nwrite + j
          trace := w.trace ++ accept_obs w.fd w.output 0 (List.replicate j 0) }) ∧
      (∀ fuel, flush_loop env fuel 0 (buffer_size w.output) w = none) ∧
      (∀ fuel, reactor_stream_flush env fuel w = none)) := by
  constructor
  · intro hres fuel hf
    obtain ⟨ns, hacc, hl, hs, hfin⟩ :=
      exists_loop_run env w.output hres w.output.length 0 w.nwrite (by simp)
    have hpos := accepts_positive env w.output hres ns _ _ hacc
    simp only [Nat.zero_add] at hs hfin
    have hdrained : ns.sum = w.output.length →
        ∃ ns size w1,
          flush_loop env fuel 0 (buffer_size w.output) w = some (size, w1) ∧
          accepts env w.output w.nwrite 0 ns ∧ (∀ n ∈ ns, 1 ≤ n) ∧
          ((size = 0 ∧ w1 = { w with
              nwrite := w.nwrite + ns.length
              trace := w.trace ++ accept_obs w.fd w.output 0 ns }) ∨
            (0 < size ∧ ∃ e, w1 = { w with
              nwrite := w.nwrite + ns.length + 1
              errno := e
              trace := w.trace ++ accept_obs w.fd w.output 0 ns ++
                [Obs.sys_write w.fd (w.output.drop ns.sum) (WriteRes.fail e)] })) ∧
          w1.nwrite - w.nwrite ≤ w.output.length ∧
          size = (w.output.length : Int) - (ns.sum : Nat) ∧ 0 ≤ size ∧
          ((buffer_size w1.output : Int) - size).toNat = ns.sum := by
      intro heq
      refine ⟨ns, 0, _, flush_loop_drained env ns fuel w hacc heq (by omega), hacc, hpos,
        Or.inl ⟨rfl, rfl⟩, ?_, ?_, Int.le_refl 0, ?_⟩
      · simp only []; omega
      · omega
      · simp only [buffer_size]; omega
    rcases hfin with hfin | ⟨e, he⟩
    · exact hdrained hfin
    · by_cases hlt : ns.sum < w.output.length
      · refine ⟨ns, _, _, flush_loop_failed env ns e fuel w hacc hlt he (by omega), hacc, hpos,
          Or.inr ⟨by omega, e, rfl⟩, ?_, ?_, ?_, ?_⟩
        · simp only []; omega
        · omega
        · omega
        · simp only [buffer_size]; omega
      · exact hdrained (by omega)
  · intro hzero hne
    have hlen : 0 < w.output.length := List.length_pos.mpr hne
    have hsz : ((buffer_size w.output : Nat) : Int) ≠ 0 := by
      simp only [buffer_size]; omega
    refine ⟨?_, ?_, ?_⟩
    · intro fuel j
      have hacc : ∀ (j i : Nat), accepts env w.output i 0 (List.replicate j 0) := by
        intro j
        induction j with
        | zero => intro i; trivial
        | succ m ihm => intro i; exact ⟨hlen, by omega, hzero _ _, ihm (i + 1)⟩
      have h := flush_loop_accepts env (List.replicate j 0) fuel 0 (buffer_size w.output) w
        (hacc j w.nwrite) (by simp [buffer_size])
      simpa using h
    · intro fuel
      exact flush_loop_stalls env hzero fuel 0 _ w hsz
    · intro fuel
      cases fuel with
      | zero => exact flush_zero env w
      | succ n =>
        rw [flush_succ]
        dsimp only
        rw [flush_loop_stalls env hzero n 0 _ _ hsz]
        rfl

/-- Witness for `flush_loop_totality`: "ping" queued on a descriptor that
accepts one byte per call, and on one that always reports 0 bytes. -/
theorem flush_loop_totality_witness :
    (∃ ns size w1,
      flush_loop env_one_byte 5 0 4 (reactor_stream_write ping (reactor_stream_open 3))
        = some (size, w1) ∧
      accepts env_one_byte ping 0 0 ns ∧ (∀ n ∈ ns, 1 ≤ n) ∧
      ((size = 0 ∧ w1 = { reactor_stream_write ping (reactor_stream_open 3) with
          nwrite := 0 + ns.length
          trace := (reactor_stream_open 3).trace ++ accept_obs 3 ping 0 ns }) ∨
        (0 < size ∧ ∃ e, w1 = { reactor_stream_write ping (reactor_stream_open 3) with
          nwrite := 0 + ns.length + 1
          errno := e
          trace := (reactor_stream_open 3).trace ++ accept_obs 3 ping 0 ns ++
            [Obs.sys_write 3 (ping.drop ns.sum) (WriteRes.fail e)] })) ∧
      w1.nwrite - 0 ≤ 4 ∧
      size = (4 : Int) - (ns.sum : Nat) ∧ 0 ≤ size ∧
      ((buffer_size w1.output : Int) - size).toNat = ns.sum) ∧
    (∀ fuel, reactor_stream_flush env_stalled fuel
      (reactor_stream_write ping (reactor_stream_open 3)) = none) :=
  ⟨(flush_loop_totality env_one_byte (reactor_stream_write ping (reactor_stream_open 3))).1
      (fun _ d hd => Or.inr ⟨1, rfl, Nat.le_refl 1, List.length_pos.mpr hd⟩) 5 (by decide),
   ((flush_loop_totality env_stalled (reactor_stream_write ping (reactor_stream_open 3))).2
      (fun _ _ => rfl) (by decide)).2.2⟩
/-! ## The ERROR state and I/O -/

/-- C15 (as amended): for every stream in state ERROR with `ref ≥ 1` and idle
callbacks: `reactor_stream_close` returns without issuing a read or a write
system call, and so does `reactor_stream_event` for every readiness mask that
carries neither POLLIN nor POLLOUT.  The error transition itself leaves the
interest mask at 0, so that the multiplexer is no longer asked for POLLIN or
POLLOUT on the descriptor. -/
theorem error_state_close_and_event_without_io (env : Env) (fuel : Nat) (w : World)
    (hf : 3 ≤ fuel) (hs : w.state = State.ERROR) (href : 1 ≤ w.ref)
    (hidle : ∀ i ev view, env.callback i ev view = []) :
    (∃ w1 t, reactor_stream_close env fuel w = some w1 ∧ w1.trace = w.trace ++ t ∧
      io_calls t = 0) ∧
    (∀ revents, revents &&& POLLIN = 0 → revents &&& POLLOUT = 0 →
      ∃ w1 t, reactor_stream_event env fuel revents w = some w1 ∧ w1.trace = w.trace ++ t ∧
        io_calls t = 0) ∧
    (∀ w0 : World, ∃ w1, reactor_stream_error env fuel w0 = some w1 ∧
      w1.state = State.ERROR ∧ w1.events = 0) := by
  obtain ⟨f, rfl⟩ : ∃ f, fuel = f + 3 := ⟨fuel - 3, by omega⟩
  have hrel : w.ref ≠ 0 := by omega
  refine ⟨?_, ?_, ?_⟩
  · by_cases h1 : w.ref = 1
    · exact ⟨_, [Obs.fd_deregister w.fd, Obs.sys_close w.fd, Obs.destruct_input,
          Obs.destruct_output, Obs.enter Event.CLOSE [] State.CLOSED (-1) 0,
          Obs.leave Event.CLOSE],
        close_last env f w (by rw [hs]; decide) (Or.inl hs) h1 (hidle _ _ _), rfl, rfl⟩
    · exact ⟨_, [], close_quiet env (f + 1) w (by rw [hs]; decide) (Or.inl hs) hrel h1,
        by simp, rfl⟩
  · intro revents hin hout
    by_cases herr : revents &&& (POLLERR ||| POLLNVAL) = 0
    · by_cases hhup : revents &&& (POLLIN ||| POLLHUP) = POLLHUP
      · refine ⟨{ w with
            ndispatch := w.ndispatch + 1
            trace := w.trace ++ [Obs.enter Event.HANGUP [] w.state w.fd (w.ref + 1),
              Obs.leave Event.HANGUP] },
          [Obs.enter Event.HANGUP [] w.state w.fd (w.ref + 1),
          Obs.leave Event.HANGUP], ?_, rfl, rfl⟩
        simp only [reactor_stream_event, reactor_stream_hold]
        rw [if_neg (by simpa using herr), if_neg (by simpa using hout)]
        simp [hhup, dispatch_idle, hidle, release_keep, hrel]
      · refine ⟨w, [], ?_, by simp, rfl⟩
        simp only [reactor_stream_event, reactor_stream_hold]
        rw [if_neg (by simpa using herr), if_neg (by simpa using hout)]
        simp [hhup, hin, release_keep, hrel]
    · refine ⟨{ w with
          events := 0
          state := State.ERROR
          ndispatch := w.ndispatch + 1
          trace := w.trace ++ [Obs.enter Event.ERROR [] State.ERROR w.fd (w.ref + 1),
            Obs.leave Event.ERROR] },
        [Obs.enter Event.ERROR [] State.ERROR w.fd (w.ref + 1),
        Obs.leave Event.ERROR], ?_, rfl, rfl⟩
      simp only [reactor_stream_event, reactor_stream_hold]
      rw [if_pos herr]
      simp [error_succ, dispatch_idle, hidle, release_keep, hrel]
  · intro w0
    exact ⟨_, by rw [error_succ, dispatch_idle _ _ _ _ _ (hidle _ _ _)], rfl, rfl⟩

/-- Witness for `error_state_close_and_event_without_io`: the ERROR-state
stream left by a failed flush; it is closed, and it is notified of POLLHUP. -/
theorem error_state_close_and_event_without_io_witness :
    (∃ w1 t, reactor_stream_close env_broken 3
        { reactor_stream_open 3 with state := State.ERROR, output := [121], events := 0 }
        = some w1 ∧
      w1.trace = (reactor_stream_open 3).trace ++ t ∧ io_calls t = 0) ∧
    (∃ w1 t, reactor_stream_event env_broken 3 POLLHUP
        { reactor_stream_open 3 with state := State.ERROR, output := [121], events := 0 }
        = some w1 ∧
      w1.trace = (reactor_stream_open 3).trace ++ t ∧ io_calls t = 0) :=
  have h := error_state_close_and_event_without_io env_broken 3
    { reactor_stream_open 3 with state := State.ERROR, output := [121], events := 0 }
    (by decide) rfl (by decide) (fun _ _ _ => rfl)
  ⟨h.1, h.2.1 POLLHUP (by decide) (by decide)⟩

/-! ## The dispatch policy of the readiness handler -/

/-- C19: the readiness handler with idle callbacks, for every readiness mask
and every stream.  (1) With POLLERR or POLLNVAL set the handler holds, makes
the error transition and goes to its final release: between hold and release
the trace gains the ERROR dispatch only, so neither a flush nor a read is
performed.  Otherwise, with `a` the world after the write phase (the flush if
POLLOUT is set) and `t` what the handler adds to the trace between the write
phase and its final release: (2) with POLLHUP set and POLLIN clear, `t` is
exactly one HANGUP dispatch, without a read call; (3) `t` holds a read call
only if POLLIN is set, and never more than one; and in every case `t` holds
at most one dispatch of HANGUP or READ. -/
theorem readiness_dispatch_policy (env : Env) (fuel revents : Nat) (w : World)
    (hf : 2 ≤ fuel) (hidle : ∀ i ev view, env.callback i ev view = []) :
    (revents &&& (POLLERR ||| POLLNVAL) ≠ 0 →
      reactor_stream_event env fuel revents w =
        reactor_stream_release env fuel { w with
          ref := w.ref + 1
          events := 0
          state := State.ERROR
          ndispatch := w.ndispatch + 1
          trace := w.trace ++ [Obs.enter Event.ERROR [] State.ERROR w.fd (w.ref + 1),
            Obs.leave Event.ERROR] }) ∧
    (revents &&& (POLLERR ||| POLLNVAL) = 0 → ∀ a,
      (if revents &&& POLLOUT ≠ 0 then reactor_stream_flush env fuel (reactor_stream_hold w)
        else some (reactor_stream_hold w)) = some a →
      ∃ b t, reactor_stream_event env fuel revents w = reactor_stream_release env fuel b ∧
        b.trace = a.trace ++ t ∧
        (revents &&& (POLLIN ||| POLLHUP) = POLLHUP →
          t = [Obs.enter Event.HANGUP [] a.state a.fd a.ref, Obs.leave Event.HANGUP]) ∧
        (revents &&& POLLIN = 0 → read_calls t = 0) ∧
        read_calls t ≤ 1 ∧
        dispatched Event.HANGUP t + dispatched Event.READ t ≤ 1) := by
  obtain ⟨f, rfl⟩ : ∃ f, fuel = f + 2 := ⟨fuel - 2, by omega⟩
  constructor
  · intro herr
    simp only [reactor_stream_event, reactor_stream_hold]
    rw [if_pos herr]
    simp [error_succ, dispatch_idle, hidle]
  · intro herr a hphase
    simp only [reactor_stream_event]
    rw [if_neg (by simpa using herr)]
    by_cases hp : revents &&& POLLOUT ≠ 0
    on_goal 1 => rw [if_pos hp] at hphase; rw [if_pos hp, hphase]
    on_goal 2 => rw [if_neg hp] at hphase; rw [if_neg hp, hphase]
    all_goals
      simp only [Option.bind_eq_bind, Option.some_bind]
      by_cases hhup : revents &&& (POLLIN ||| POLLHUP) = POLLHUP
      · refine ⟨?_, [Obs.enter Event.HANGUP [] a.state a.fd a.ref, Obs.leave Event.HANGUP],
          ?_, ?_, fun _ => rfl, fun _ => rfl, ?_, ?_⟩
        · exact { a with
            ndispatch := a.ndispatch + 1
            trace := a.trace ++
              [Obs.enter Event.HANGUP [] a.state a.fd a.ref, Obs.leave Event.HANGUP] }
        · rw [if_pos hhup, dispatch_idle _ _ _ _ _ (hidle _ _ _)]
          rfl
        · rfl
        · simp [read_calls]
        · simp [dispatched]
      · rw [if_neg hhup]
        by_cases hin : revents &&& POLLIN = 0
        · refine ⟨a, [], ?_, by simp, fun h => absurd h hhup, fun _ => rfl, by simp [read_calls],
            by simp [dispatched]⟩
          rw [if_neg (by simpa using hin)]
        · rw [if_pos hin]
          cases hres : env.sys_read a.nread with
          | ok bytes =>
            cases bytes with
            | nil =>
              refine ⟨{ a with
                  nread := a.nread + 1
                  ndispatch := a.ndispatch + 1
                  trace := a.trace ++ [Obs.sys_read a.fd (ReadRes.ok []),
                    Obs.enter Event.HANGUP [] a.state a.fd a.ref, Obs.leave Event.HANGUP] },
                [Obs.sys_read a.fd (ReadRes.ok []),
                  Obs.enter Event.HANGUP [] a.state a.fd a.ref, Obs.leave Event.HANGUP],
                ?_, rfl, fun h => absurd h hhup, fun h => absurd h hin,
                by simp [read_calls], by simp [dispatched]⟩
              simp [dispatch_idle, hidle]
            | cons x xs =>
              by_cases hb : buffer_size a.input = 0
              · refine ⟨{ a with
                    nread := a.nread + 1
                    ndispatch := a.ndispatch + 1
                    data_size := (x :: xs).length
                    input := buffer_insert a.input (buffer_size a.input)
                      ((x :: xs).take (x :: xs).length)
                    trace := a.trace ++ [Obs.sys_read a.fd (ReadRes.ok (x :: xs)),
                      Obs.enter Event.READ (x :: xs) a.state a.fd a.ref,
                      Obs.leave Event.READ] },
                  [Obs.sys_read a.fd (ReadRes.ok (x :: xs)),
                    Obs.enter Event.READ (x :: xs) a.state a.fd a.ref, Obs.leave Event.READ],
                  ?_, rfl, fun h => absurd h hhup, fun h => absurd h hin,
                  by simp [read_calls], by simp [dispatched]⟩
                simp [hb, dispatch_idle, hidle]
              · refine ⟨{ a with
                    nread := a.nread + 1
                    ndispatch := a.ndispatch + 1
                    data_size := buffer_size
                      (buffer_insert a.input (buffer_size a.input) (x :: xs))
                    input := buffer_erase
                      (buffer_insert a.input (buffer_size a.input) (x :: xs)) 0
                      ((buffer_size (buffer_insert a.input (buffer_size a.input) (x :: xs))
                        + SIZE_MOD
                        - buffer_size (buffer_insert a.input (buffer_size a.input) (x :: xs))
                          % SIZE_MOD) % SIZE_MOD)
                    trace := a.trace ++ [Obs.sys_read a.fd (ReadRes.ok (x :: xs)),
                      Obs.enter Event.READ
                        (buffer_insert a.input (buffer_size a.input) (x :: xs))
                        a.state a.fd a.ref,
                      Obs.leave Event.READ] },
                  [Obs.sys_read a.fd (ReadRes.ok (x :: xs)),
                    Obs.enter Event.READ
                      (buffer_insert a.input (buffer_size a.input) (x :: xs))
                      a.state a.fd a.ref, Obs.leave Event.READ],
                  ?_, rfl, fun h => absurd h hhup, fun h => absurd h hin,
                  by simp [read_calls], by simp [dispatched]⟩
                simp [hb, dispatch_idle, hidle]
          | fail e =>
            by_cases he : e ≠ EAGAIN
            · refine ⟨{ a with
                  nread := a.nread + 1
                  errno := e
                  events := 0
                  state := State.ERROR
                  ndispatch := a.ndispatch + 1
                  trace := a.trace ++ [Obs.sys_read a.fd (ReadRes.fail e),
                    Obs.enter Event.ERROR [] State.ERROR a.fd a.ref, Obs.leave Event.ERROR] },
                [Obs.sys_read a.fd (ReadRes.fail e),
                  Obs.enter Event.ERROR [] State.ERROR a.fd a.ref, Obs.leave Event.ERROR],
                ?_, rfl, fun h => absurd h hhup, fun h => absurd h hin,
                by simp [read_calls], by simp [dispatched]⟩
              simp [he, error_succ, dispatch_idle, hidle]
            · refine ⟨{ a with
                  nread := a.nread + 1
                  errno := e
                  trace := a.trace ++ [Obs.sys_read a.fd (ReadRes.fail e)] },
                [Obs.sys_read a.fd (ReadRes.fail e)],
                ?_, rfl, fun h => absurd h hhup, fun h => absurd h hin,
                by simp [read_calls], by simp [dispatched]⟩
              simp [he]

/-- Witness for `readiness_dispatch_policy`: a fresh stream notified of
POLLERR, and of POLLHUP. -/
theorem readiness_dispatch_policy_witness :
    reactor_stream_event env_eof 2 POLLERR (reactor_stream_open 3) =
      reactor_stream_release env_eof 2 { reactor_stream_open 3 with
        ref := 2
        events := 0
        state := State.ERROR
        ndispatch := 1
        trace := (reactor_stream_open 3).trace ++
          [Obs.enter Event.ERROR [] State.ERROR 3 2, Obs.leave Event.ERROR] } ∧
    ∃ b t, reactor_stream_event env_eof 2 POLLHUP (reactor_stream_open 3)
        = reactor_stream_release env_eof 2 b ∧
      b.trace = (reactor_stream_open 3).trace ++ t ∧
      t = [Obs.enter Event.HANGUP [] State.OPEN 3 2, Obs.leave Event.HANGUP] :=
  ⟨(readiness_dispatch_policy env_eof 2 POLLERR (reactor_stream_open 3) (by decide)
      (fun _ _ _ => rfl)).1 (by decide),
   match (readiness_dispatch_policy env_eof 2 POLLHUP (reactor_stream_open 3) (by decide)
      (fun _ _ _ => rfl)).2 (by decide) (reactor_stream_hold (reactor_stream_open 3))
      (if_neg (by decide)) with
   | ⟨b, t, h1, h2, h3, _⟩ => ⟨b, t, h1, h2, h3 (by decide)⟩⟩

/-! ## The output buffer invariant -/

theorem flush_loop_frame (env : Env) :
    ∀ fuel base (size : Int) (w : World) (r : Int × World),
      flush_loop env fuel base size w = some r →
        r.2.state = w.state ∧ r.2.output = w.output := by
  intro fuel
  induction fuel with
  | zero => intro base size w r h; simp [flush_loop] at h
  | succ n ih =>
    intro base size w r h
    rw [flush_loop_succ] at h
    split at h
    · cases h; exact ⟨rfl, rfl⟩
    · split at h
      · cases h; exact ⟨rfl, rfl⟩
      · have h2 := ih _ _ _ r h
        exact h2

theorem closed_without_output_frame {a x : World} (ha : closed_without_output a)
    (hs : x.state = a.state) (ho : x.output = a.output) : closed_without_output x := by
  intro h
  rw [ho]
  exact ha (by rw [← hs]; exact h)

theorem and_then_preserves {P : World → Prop} {ok : Bool} {x : Option World}
    {k : World → Bool} {k2 : World → Option World} {w1 : World}
    (hg : and_then ok x k = true) (h : x.bind k2 = some w1)
    (hx : ok = true → ∀ a, x = some a → P a)
    (hk : ∀ a, k a = true → P a → k2 a = some w1 → P w1) : P w1 := by
  cases x with
  | none => simp at h
  | some a =>
    simp only [and_then, Bool.and_eq_true] at hg
    exact hk a hg.2 (hx hg.1 a rfl) h

theorem and_then_if_preserves {P : World → Prop} {c : Prop} [Decidable c]
    {ok : World → Bool} {f : World → Option World} {w : World}
    {k : World → Bool} {k2 : World → Option World} {w1 : World}
    (hg : and_then_if c ok f w k = true)
    (h : (if c then (f w).bind k2 else k2 w) = some w1)
    (hw : P w)
    (hf : ok w = true → ∀ a, f w = some a → P a)
    (hk : ∀ a, k a = true → P a → k2 a = some w1 → P w1) : P w1 := by
  unfold and_then_if at hg
  by_cases hc : c
  · rw [if_pos hc] at hg h
    exact and_then_preserves hg h hf hk
  · rw [if_neg hc] at hg h
    exact hk w hg hw h

theorem dispatch_writes_open_succ (env : Env) (fuel : Nat) (ev : Event) (view : List Byte)
    (w : World) :
    dispatch_writes_open env (fuel + 1) ev view w =
      actions_writes_open env fuel (close_writes_open env fuel) (flush_writes_open env fuel)
        (release_writes_open env fuel) (env.callback w.ndispatch ev view)
        { w with
          ndispatch := w.ndispatch + 1
          trace := w.trace ++ [Obs.enter ev view w.state w.fd w.ref] } := by
  rw [dispatch_writes_open]

theorem error_writes_open_succ (env : Env) (fuel : Nat) (w : World) :
    error_writes_open env (fuel + 1) w =
      dispatch_writes_open env fuel Event.ERROR []
        { w with events := 0, state := State.ERROR } := by
  rw [error_writes_open]

theorem release_writes_open_succ (env : Env) (fuel : Nat) (w : World) :
    release_writes_open env (fuel + 1) w =
      if w.ref - 1 = 0 then
        dispatch_writes_open env fuel Event.CLOSE []
          { w with
            ref := w.ref - 1
            state := State.CLOSED
            fd := -1
            input := []
            output := []
            registered := false
            trace := w.trace ++ [Obs.fd_deregister w.fd, Obs.sys_close w.fd,
              Obs.destruct_input, Obs.destruct_output] }
      else true := by
  rw [release_writes_open]
  simp [reactor_stream_close_fd]

theorem close_writes_open_succ (env : Env) (fuel : Nat) (w : World) :
    close_writes_open env (fuel + 1) w =
      if w.state.bits &&& State.CLOSED.bits ≠ 0 then true
      else
        if (reactor_stream_hold w).state.bits &&&
            (State.OPEN.bits ||| State.CLOSING.bits) ≠ 0 then
          and_then_if
            (buffer_size ({ reactor_stream_hold w with state := State.CLOSING } : World).output
              ≠ 0)
            (flush_writes_open env fuel) (reactor_stream_flush env fuel)
            { reactor_stream_hold w with state := State.CLOSING }
            (fun b =>
              and_then_if
                (b.state.bits &&& State.CLOSING.bits ≠ 0 ∧ buffer_size b.output = 0)
                (release_writes_open env fuel) (reactor_stream_release env fuel) b
                (fun w2 =>
                  and_then_if (w2.state.bits &&& State.ERROR.bits ≠ 0)
                    (release_writes_open env fuel) (reactor_stream_release env fuel) w2
                    (fun w3 => release_writes_open env fuel w3)))
        else
          and_then_if ((reactor_stream_hold w).state.bits &&& State.ERROR.bits ≠ 0)
            (release_writes_open env fuel) (reactor_stream_release env fuel)
            (reactor_stream_hold w)
            (fun w3 => release_writes_open env fuel w3) := by
  rw [close_writes_open]

theorem flush_writes_open_succ (env : Env) (fuel : Nat) (w : World) :
    flush_writes_open env (fuel + 1) w =
      match flush_loop env fuel 0 (buffer_size w.output) { w with errno := 0 } with
      | none => true
      | some r =>
        if buffer_size (buffer_erase r.2.output 0
            ((buffer_size r.2.output : Int) - r.1).toNat) = 0 then
          if r.2.state = State.OPEN then
            dispatch_writes_open env fuel Event.WRITE []
              { r.2 with
                output := buffer_erase r.2.output 0 ((buffer_size r.2.output : Int) - r.1).toNat
                events := r.2.events &&& (0xFFFF - POLLOUT) }
          else
            close_writes_open env fuel
              { r.2 with
                output := buffer_erase r.2.output 0
                  ((buffer_size r.2.output : Int) - r.1).toNat }
        else if r.2.errno = EAGAIN then
          dispatch_writes_open env fuel Event.BLOCKED []
            { r.2 with
              output := buffer_erase r.2.output 0 ((buffer_size r.2.output : Int) - r.1).toNat
              events := r.2.events ||| POLLOUT }
        else
          and_then
            (error_writes_open env fuel
              (reactor_stream_hold { r.2 with
                output := buffer_erase r.2.output 0
                  ((buffer_size r.2.output : Int) - r.1).toNat }))
            (reactor_stream_error env fuel
              (reactor_stream_hold { r.2 with
                output := buffer_erase r.2.output 0
                  ((buffer_size r.2.output : Int) - r.1).toNat }))
            (fun w4 =>
              and_then_if (r.2.state = State.CLOSING)
                (close_writes_open env fuel) (reactor_stream_close env fuel) w4
                (fun w5 => release_writes_open env fuel w5)) := by
  rw [flush_writes_open]
  cases flush_loop env fuel 0 (buffer_size w.output) { w with errno := 0 } with
  | none => rfl
  | some r => rfl

attribute [irreducible] dispatch_writes_open error_writes_open release_writes_open
  close_writes_open flush_writes_open

theorem actions_preserve (env : Env) (n : Nat)
    (ihr : ∀ w w1, release_writes_open env n w = true → closed_without_output w →
      reactor_stream_release env n w = some w1 → closed_without_output w1)
    (ihc : ∀ w w1, close_writes_open env n w = true → closed_without_output w →
      reactor_stream_close env n w = some w1 → closed_without_output w1)
    (ihf : ∀ w w1, flush_writes_open env n w = true → closed_without_output w →
      reactor_stream_flush env n w = some w1 → closed_without_output w1) :
    ∀ (acts : List Action) (w w1 : World),
      actions_writes_open env n (close_writes_open env n) (flush_writes_open env n)
        (release_writes_open env n) acts w = true →
      closed_without_output w →
      acts.foldlM
        (fun (acc : World) (a : Action) =>
          match a with
          | .close => reactor_stream_close env n acc
          | .write data => some (reactor_stream_write data acc)
          | .flush => reactor_stream_flush env n acc
          | .write_notify => some (reactor_stream_write_notify acc)
          | .hold => some (reactor_stream_hold acc)
          | .release => reactor_stream_release env n acc
          | .consume size => some (reactor_stream_data_consume size acc))
        w = some w1 →
      closed_without_output w1 := by
  intro acts
  induction acts with
  | nil =>
    intro w w1 _ hw h
    simp only [List.foldlM_nil] at h
    cases h
    exact hw
  | cons a acts ih =>
    intro w w1 hg hw h
    rw [List.foldlM_cons] at h
    cases a with
    | close =>
      exact and_then_preserves hg h (fun hok a ha => ihc w a hok hw ha)
        (fun a hka hpa hk => ih a w1 hka hpa hk)
    | write d =>
      simp only [actions_writes_open, Bool.and_eq_true, decide_eq_true_eq] at hg
      exact ih (reactor_stream_write d w) w1 hg.2 (fun hs => absurd hs hg.1) h
    | flush =>
      exact and_then_preserves hg h (fun hok a ha => ihf w a hok hw ha)
        (fun a hka hpa hk => ih a w1 hka hpa hk)
    | write_notify => exact ih (reactor_stream_write_notify w) w1 hg hw h
    | hold => exact ih (reactor_stream_hold w) w1 hg hw h
    | release =>
      exact and_then_preserves hg h (fun hok a ha => ihr w a hok hw ha)
        (fun a hka hpa hk => ih a w1 hka hpa hk)
    | consume k => exact ih (reactor_stream_data_consume k w) w1 hg hw h

theorem writes_open_preserve (env : Env) :
    ∀ fuel : Nat,
      (∀ ev view w w1, dispatch_writes_open env fuel ev view w = true →
        closed_without_output w →
        reactor_user_dispatch env fuel ev view w = some w1 → closed_without_output w1) ∧
      (∀ w w1, error_writes_open env fuel w = true → closed_without_output w →
        reactor_stream_error env fuel w = some w1 → closed_without_output w1) ∧
      (∀ w w1, release_writes_open env fuel w = true → closed_without_output w →
        reactor_stream_release env fuel w = some w1 → closed_without_output w1) ∧
      (∀ w w1, close_writes_open env fuel w = true → closed_without_output w →
        reactor_stream_close env fuel w = some w1 → closed_without_output w1) ∧
      (∀ w w1, flush_writes_open env fuel w = true → closed_without_output w →
        reactor_stream_flush env fuel w = some w1 → closed_without_output w1) := by
  intro fuel
  induction fuel with
  | zero => simp [dispatch_zero, error_zero, release_zero, close_zero, flush_zero]
  | succ n ih =>
    obtain ⟨ihd, ihe, ihr, ihc, ihf⟩ := ih
    refine ⟨?_, ?_, ?_, ?_, ?_⟩
    · intro ev view w w1 hg hw h
      rw [dispatch_succ] at h
      rw [dispatch_writes_open_succ] at hg
      obtain ⟨w2, h2, rfl⟩ := Option.map_eq_some'.mp h
      have hw2 : closed_without_output w2 := by
        refine actions_preserve env n ihr ihc ihf _ _ w2 hg ?_ h2
        exact hw
      exact hw2
    · intro w w1 hg _ h
      rw [error_succ] at h
      rw [error_writes_open_succ] at hg
      exact ihd _ _ _ _ hg (fun hs => by cases hs) h
    · intro w w1 hg hw h
      rw [release_succ] at h
      rw [release_writes_open_succ] at hg
      by_cases hc : w.ref - 1 = 0
      · rw [if_pos hc] at h hg
        exact ihd _ _ _ _ hg (fun _ => rfl) h
      · rw [if_neg hc] at h
        cases h
        exact hw
    · intro w w1 hg hw h
      rw [close_succ] at h
      rw [close_writes_open_succ] at hg
      by_cases hcl : w.state.bits &&& State.CLOSED.bits ≠ 0
      · rw [if_pos hcl] at h
        cases h
        exact hw
      · rw [if_neg hcl] at h hg
        simp only [Option.bind_eq_bind, Option.some_bind] at h
        have hh : closed_without_output (reactor_stream_hold w) := hw
        have hclosing : closed_without_output
            { reactor_stream_hold w with state := State.CLOSING } := fun hs => by cases hs
        have tail : ∀ a : World,
            and_then_if (a.state.bits &&& State.ERROR.bits ≠ 0)
              (release_writes_open env n) (reactor_stream_release env n) a
              (fun w3 => release_writes_open env n w3) = true →
            closed_without_output a →
            (if a.state.bits &&& State.ERROR.bits ≠ 0 then
              (reactor_stream_release env n a).bind (fun y => reactor_stream_release env n y)
            else reactor_stream_release env n a) = some w1 → closed_without_output w1 := by
          intro a hga ha hb
          exact and_then_if_preserves hga hb ha (fun hok c hc => ihr a c hok ha hc)
            (fun c hkc hpc hk => ihr c w1 hkc hpc hk)
        by_cases hoc : (reactor_stream_hold w).state.bits &&&
            (State.OPEN.bits ||| State.CLOSING.bits) ≠ 0
        · rw [if_pos hoc] at h hg
          refine and_then_if_preserves hg h hclosing (fun hok c hc => ihf _ c hok hclosing hc) ?_
          intro b hkb hpb hk
          refine and_then_if_preserves hkb hk hpb (fun hok c hc => ihr b c hok hpb hc) ?_
          intro c hkc hpc hk2
          exact tail c hkc hpc hk2
        · rw [if_neg hoc] at h hg
          exact tail _ hg hh h
    · intro w w1 hg hw h
      rw [flush_succ] at h
      rw [flush_writes_open_succ] at hg
      simp only [Option.bind_eq_bind, Option.some_bind] at h
      cases hl : flush_loop env n 0 (buffer_size w.output) { w with errno := 0 } with
      | none => rw [hl] at h; simp at h
      | some r =>
        rw [hl] at h hg
        simp only [Option.some_bind] at h
        obtain ⟨hst, hout⟩ := flush_loop_frame env n 0 _ _ r hl
        have hQ : ∀ x : World, x.state = r.2.state →
            x.output = buffer_erase r.2.output 0 ((buffer_size r.2.output : Int) - r.1).toNat →
            closed_without_output x := by
          intro x hxs hxo hs
          have h0 : w.output = [] := hw (by rw [← hst, ← hxs]; exact hs)
          rw [hxo, hout, h0]
          simp [buffer_erase]
        dsimp only at hg
        by_cases hz : buffer_size (buffer_erase r.2.output 0
            ((buffer_size r.2.output : Int) - r.1).toNat) = 0
        · rw [if_pos hz] at h hg
          by_cases hopen : r.2.state = State.OPEN
          · rw [if_pos hopen] at h hg
            exact ihd _ _ _ _ hg (by exact hQ _ rfl rfl) h
          · rw [if_neg hopen] at h hg
            exact ihc _ _ hg (by exact hQ _ rfl rfl) h
        · rw [if_neg hz] at h hg
          by_cases hag : r.2.errno = EAGAIN
          · rw [if_pos hag] at h hg
            exact ihd _ _ _ _ hg (by exact hQ _ rfl rfl) h
          · rw [if_neg hag] at h hg
            refine and_then_preserves hg h
              (fun hok c hc => ihe _ c hok (by exact hQ _ rfl rfl) hc) ?_
            intro a hka hpa hk
            refine and_then_if_preserves hka hk hpa (fun hok c hc => ihc a c hok hpa hc) ?_
            intro c hkc hpc hk2
            exact ihr c w1 hkc hpc hk2

theorem event_preserve (env : Env) (fuel revents : Nat) (w w1 : World)
    (hg : event_writes_open env fuel revents w = true)
    (hw : closed_without_output w) (h : reactor_stream_event env fuel revents w = some w1) :
    closed_without_output w1 := by
  obtain ⟨ihd, ihe, ihr, ihc, ihf⟩ := writes_open_preserve env fuel
  have hh : closed_without_output (reactor_stream_hold w) := hw
  simp only [reactor_stream_event, Option.bind_eq_bind, Option.some_bind] at h
  unfold event_writes_open at hg
  dsimp only at hg
  by_cases herr : revents &&& (POLLERR ||| POLLNVAL) ≠ 0
  · rw [if_pos herr] at h hg
    exact and_then_preserves hg h (fun hok c hc => ihe _ c hok hh hc)
      (fun c hkc hpc hk => ihr c w1 hkc hpc hk)
  · rw [if_neg herr] at h hg
    refine and_then_if_preserves hg h hh (fun hok c hc => ihf _ c hok hh hc) ?_
    intro a hka hpa hk
    have hb : ∀ x : World, x.state = a.state → x.output = a.output →
        closed_without_output x := fun x hs ho => closed_without_output_frame hpa hs ho
    by_cases hhup : revents &&& (POLLIN ||| POLLHUP) = POLLHUP
    · rw [if_pos hhup] at hk hka
      exact and_then_preserves hka hk (fun hok c hc => ihd _ _ _ c hok hpa hc)
        (fun c hkc hpc hk2 => ihr c w1 hkc hpc hk2)
    · rw [if_neg hhup] at hk hka
      by_cases hin : revents &&& POLLIN ≠ 0
      · rw [if_pos hin] at hk hka
        cases hres : env.sys_read a.nread with
        | fail e =>
          rw [hres] at hk hka
          dsimp only at hk
          dsimp only at hka
          exact and_then_if_preserves hka hk (by exact hb _ rfl rfl)
            (fun hok c hc => ihe _ c hok (by exact hb _ rfl rfl) hc)
            (fun c hkc hpc hk2 => ihr c w1 hkc hpc hk2)
        | ok buffer =>
          rw [hres] at hk hka
          cases buffer with
          | nil =>
            dsimp only at hk
            dsimp only at hka
            exact and_then_preserves hka hk
              (fun hok c hc => ihd _ _ _ c hok (by exact hb _ rfl rfl) hc)
              (fun c hkc hpc hk2 => ihr c w1 hkc hpc hk2)
          | cons x xs =>
            dsimp only at hk
            dsimp only at hka
            by_cases hbz : buffer_size a.input = 0
            · rw [if_pos hbz] at hk hka
              refine and_then_preserves hka hk
                (fun hok c hc => ihd _ _ _ c hok (by exact hb _ rfl rfl) hc) ?_
              intro d hkd hpd hk2
              by_cases hds : d.data_size ≠ 0
              · rw [if_pos hds] at hk2 hkd
                exact ihr _ w1 hkd (by exact closed_without_output_frame hpd rfl rfl) hk2
              · rw [if_neg hds] at hk2 hkd
                exact ihr _ w1 hkd hpd hk2
            · rw [if_neg hbz] at hk hka
              exact and_then_preserves hka hk
                (fun hok c hc => ihd _ _ _ c hok (by exact hb _ rfl rfl) hc)
                (fun d hkd hpd hk2 =>
                  ihr _ w1 hkd (by exact closed_without_output_frame hpd rfl rfl) hk2)
      · rw [if_neg hin] at hk hka
        exact ihr a w1 hka hpa hk

/-- The precondition on `reactor_stream_write` is needed, and the check sees
it broken: when the CLOSE callback writes to the stream, `reactor_stream_close`
returns with state CLOSED and the byte in the output buffer, and the check of
that run is false. -/
theorem write_in_close_keeps_output :
    (reactor_stream_close env_write_in_close 4 (reactor_stream_open 3)).map
      (fun w => (w.state, w.output)) = some (State.CLOSED, [120]) ∧
    op_writes_open env_write_in_close 4 Op.close (reactor_stream_open 3) = false := by
  decide!

/-- C13 (as amended): on return from every public operation and readiness
notification, for every execution starting from `reactor_stream_open` in which
`reactor_stream_write` is never called on a CLOSED stream (neither from inside
a callback nor from outside), a stream in state CLOSED has an empty output
buffer; that is, a non-empty output buffer means state OPEN, CLOSING or
ERROR. -/
theorem output_empty_when_closed (env : Env) (w : World) (hr : Reachable env w) :
    w.state = State.CLOSED → w.output = [] := by
  show closed_without_output w
  induction hr with
  | opened fd => intro _; rfl
  | step op fuel _ hg hrun ih =>
    obtain ⟨_, _, ihr, ihc, ihf⟩ := writes_open_preserve env fuel
    cases op with
    | write d =>
      cases hrun
      simp only [op_writes_open, decide_eq_true_eq] at hg
      exact fun hs => absurd hs hg
    | write_notify => cases hrun; exact ih
    | flush => exact ihf _ _ hg ih hrun
    | close => exact ihc _ _ hg ih hrun
    | hold => cases hrun; exact ih
    | release => exact ihr _ _ hg ih hrun
    | data_consume k => cases hrun; exact ih
    | event revents => exact event_preserve env fuel revents _ _ hg ih hrun

/-- Witness for `output_empty_when_closed`: the echo consumer.  Its READ
callback queues the byte it was given while the stream is OPEN, the byte is
written out, and on HANGUP the callback closes the stream, which ends CLOSED
with an empty output buffer. -/
theorem output_empty_when_closed_witness :
    Reachable env_echo echo_queued ∧ echo_queued.output = [65] ∧
      Reachable env_echo echo_closed ∧ echo_closed.state = State.CLOSED ∧
      echo_closed.output = [] :=
  have h1 : Reachable env_echo echo_queued :=
    Reachable.step (Op.event POLLIN) 6 (Reachable.opened 3) (by decide!) (by decide!)
  have h2 : Reachable env_echo echo_flushed :=
    Reachable.step (Op.event POLLOUT) 6 h1 (by decide!) (by decide!)
  have h3 : Reachable env_echo echo_closed :=
    Reachable.step (Op.event POLLIN) 6 h2 (by decide!) (by decide!)
  ⟨h1, rfl, h3, rfl, output_empty_when_closed env_echo echo_closed h3 rfl⟩
end Reactor
